import Mathlib

/-!
Verification of the travel-companion day-schedule construction pipeline:
a shallow embedding in Lean 4 of the route optimizer
(`app/services/internal/route_optimizer.py`), the schedule builder
(`app/services/internal/schedule_builder.py`), and the quality scorer
(`app/generators/day_plan/quality/`), together with theorems about the
behaviour of these components.

Modelling conventions:
* Clock values are minutes.  A Python `datetime` on the schedule date is
  represented by the number of minutes elapsed since the schedule date's
  midnight (a `Nat`, so it may exceed 1440 when the running clock passes
  midnight, exactly as a `datetime` may move to the following day).
  A Python `time` object or an `"HH:MM"` string is represented by its
  minutes-of-day value in `[0, 1440)`; `strftime "%H:%M"` corresponds to
  `· % 1440`, and lexicographic order on zero-padded `"HH:MM"` strings
  agrees with numeric order on the minutes-of-day values.
* Durations and distances (minutes, seconds, meters) are naturals.
* The asynchronous routing collaborator (`GoogleRoutesService`) is a pure
  oracle: each call site is a function returning `Except Unit` results,
  mirroring "returns a value or raises".
* Floating-point pace multipliers 1.3 / 0.8 applied to a natural base and
  truncated by Python's `int(...)` coincide with the exact rational values
  `13*b/10` and `4*b/5` (floor division) for every base in the ranges that
  arise, so they are embedded as exact natural-number arithmetic.
* Quality scores (Python floats) are embedded as exact rationals.
-/

/-- Trip pace options (`app/models/itinerary.py`, `Pace`). -/
inductive Pace where
  | relaxed
  | moderate
  | packed
  deriving DecidableEq, Repr

/-- Geographic coordinates (`app/models/itinerary.py`, `Location`).
Latitude/longitude floats are embedded as rationals; the optimizer and
scheduler only pass them through to the routing oracle. -/
structure Location where
  lat : ℚ
  lng : ℚ
  deriving DecidableEq, Repr, Inhabited

/-- Structured opening hours (`app/models/itinerary.py`, `OpeningHours`):
`day` uses Google's convention (0 = Sunday); the `"HH:MM"` strings
`open_time` / `close_time` are embedded as minutes-of-day. -/
structure OpeningHours where
  day : Nat
  open_time : Nat
  close_time : Nat
  deriving DecidableEq, Repr

/-- A candidate place (`app/models/itinerary.py`, `PlaceCandidate`).
Fields that none of the modelled components inspect (address, rating,
review count, price level, photo reference, business status, website,
editorial summary) are omitted.  `suggested_duration_minutes` is the
optional LLM duration hint. -/
structure PlaceCandidate where
  place_id : String
  name : String
  location : Location
  types : List String
  opening_hours : Option (List OpeningHours) := none
  suggested_duration_minutes : Option Nat := none
  deriving DecidableEq, Repr, Inhabited

/-- Route information between two places (`app/models/itinerary.py`,
`Route`); the schedule builder reads only `duration_seconds`. -/
structure Route where
  distance_meters : Nat
  duration_seconds : Nat
  deriving DecidableEq, Repr

/-- An activity with a calculated time slot (`app/models/itinerary.py`,
`ScheduledActivity`).  `start_time` / `end_time` are the `"HH:MM"`
strings produced by `strftime`, embedded as minutes-of-day. -/
structure ScheduledActivity where
  place : PlaceCandidate
  start_time : Nat
  end_time : Nat
  duration_minutes : Nat
  deriving DecidableEq, Repr

/-- Result of route optimization (`app/models/itinerary.py`,
`OptimizationResult`). -/
structure OptimizationResult where
  places : List PlaceCandidate
  total_distance_meters : Nat
  total_duration_seconds : Nat
  deriving DecidableEq, Repr

/-! ## Configuration (`app/config/tuning.py`, `app/config/planning.py`) -/

namespace SCHEDULING

/-- `SchedulingConfig.transition_buffer`. -/
def transition_buffer : Nat := 15

/-- `SchedulingConfig.min_activity_duration`. -/
def min_activity_duration : Nat := 30

end SCHEDULING

/-- `ScheduleConfig` (`schedule_builder.py`): all `"HH:MM"` fields are
minutes-of-day. -/
structure ScheduleConfig where
  day_start : Nat
  day_end : Nat
  lunch_window_start : Nat
  lunch_window_end : Nat
  dinner_window_start : Nat
  dinner_window_end : Nat
  lunch_target : Nat
  dinner_target : Nat
  buffer_minutes : Nat
  deriving DecidableEq, Repr

/-- The default `ScheduleConfig()`: day 09:00–21:00, lunch window
12:00–14:00 (target 12:30), dinner window 18:30–21:00 (target 19:00),
buffer 15 minutes (values from `app/config/tuning.py`). -/
def defaultScheduleConfig : ScheduleConfig where
  day_start := 540
  day_end := 1260
  lunch_window_start := 720
  lunch_window_end := 840
  dinner_window_start := 1110
  dinner_window_end := 1260
  lunch_target := 750
  dinner_target := 1140
  buffer_minutes := 15

/-- `DURATION_BY_TYPE` (`app/config/planning.py`): estimated visit
duration in minutes by place type, with a `"default"` entry of 45. -/
def DURATION_BY_TYPE : List (String × Nat) :=
  [("museum", 90), ("art_gallery", 60),
   ("church", 30), ("hindu_temple", 45), ("mosque", 45),
   ("place_of_worship", 30), ("historical_landmark", 45), ("monument", 30),
   ("palace", 60), ("castle", 60), ("fort", 60),
   ("park", 60), ("garden", 45), ("zoo", 120), ("aquarium", 90),
   ("national_park", 120), ("beach", 90),
   ("amusement_park", 180), ("tourist_attraction", 45), ("stadium", 30),
   ("movie_theater", 150), ("performing_arts_theater", 120),
   ("restaurant", 75), ("cafe", 45), ("bar", 60), ("bakery", 20),
   ("coffee_shop", 30),
   ("shopping_mall", 90), ("market", 60), ("clothing_store", 45),
   ("default", 45)]

/-! ## Schedule builder (`app/services/internal/schedule_builder.py`) -/

namespace ScheduleBuilder

/-- The type-based fallback of `ScheduleBuilder._get_duration`: start from
`DURATION_BY_TYPE["default"] = 45` and take the first of the place's types
that appears in the table (the Python loop `break`s at the first hit). -/
def type_base_duration : List String → Nat
  | [] => 45
  | t :: ts =>
    match DURATION_BY_TYPE.lookup t with
    | some d => d
    | none => type_base_duration ts

/-- `PACE_MULTIPLIERS` applied to a base duration:
`int(base * 1.3)`, `int(base * 1.0)`, `int(base * 0.8)` computed exactly
(see the module docstring for why floor division is faithful here). -/
def apply_pace (base : Nat) : Pace → Nat
  | .relaxed => 13 * base / 10
  | .moderate => base
  | .packed => 4 * base / 5

/-- `ScheduleBuilder._get_duration`: prefer the LLM hint when it is
truthy (Python treats both `None` and `0` as falsy), else fall back to the
type table; apply the pace multiplier and round with `(x + 7) // 15 * 15`. -/
def get_duration (place : PlaceCandidate) (pace : Pace) : Nat :=
  let base :=
    match place.suggested_duration_minutes with
    | some d => if d ≠ 0 then d else type_base_duration place.types
    | none => type_base_duration place.types
  (apply_pace base pace + 7) / 15 * 15

/-- `ScheduleBuilder._is_meal_place`: the place's types intersect the
dining set. -/
def is_meal_place (place : PlaceCandidate) : Bool :=
  place.types.any fun t =>
    t ∈ ["restaurant", "cafe", "bakery", "bar", "food"]

/-- Mutable loop state of `ScheduleBuilder.build_schedule`:
`ct` is `current_time` in minutes since the schedule date's midnight. -/
structure BuildState where
  ct : Nat
  has_lunch : Bool
  has_dinner : Bool
  meals_scheduled : Nat
  deriving DecidableEq, Repr

/-- Inner loop of `ScheduleBuilder._adjust_for_opening_hours`: find the
first entry for the Google weekday; if `current_time` precedes its open
time, move to that day's open time, else keep `current_time` (a found
entry `break`s the loop either way; no entry means no adjustment). -/
def find_open_adjust (googleDay ct : Nat) : List OpeningHours → Nat
  | [] => ct
  | h :: hs =>
    if h.day = googleDay then
      if ct % 1440 < h.open_time then ct / 1440 * 1440 + h.open_time else ct
    else find_open_adjust googleDay ct hs

/-- `ScheduleBuilder._adjust_for_opening_hours` merged with its call site
(the caller replaces `current_time` only when an adjustment is returned,
which is equivalent to returning the unchanged time).  `weekday0` is the
schedule date's Python weekday (Monday = 0); the weekday of the running
clock shifts by one per 1440 elapsed minutes, and Google's convention
adds one modulo seven.  A `None` or empty hours list (both falsy in
Python) means no adjustment. -/
def adjust_for_opening_hours (weekday0 : Nat) (place : PlaceCandidate)
    (ct : Nat) : Nat :=
  match place.opening_hours with
  | none => ct
  | some hrs =>
    if hrs = [] then ct
    else find_open_adjust ((weekday0 + ct / 1440 + 1) % 7) ct hrs

/-- The meal-timing block of `ScheduleBuilder.build_schedule`: on a meal
place, bump `meals_scheduled`, classify the slot as lunch (first meal) or
dinner (second meal, or first meal already past the dinner window start,
judged on the time-of-day component), and if the slot's window has not
started yet jump `current_time` to the window's fixed target.  Non-meal
places leave the state untouched (the non-meal branch in the source is a
no-op `pass`). -/
def meal_step (cfg : ScheduleConfig) (num_meals : Nat) (is_meal : Bool)
    (st : BuildState) : BuildState :=
  if is_meal then
    let ms := st.meals_scheduled + 1
    let tod := st.ct % 1440
    let is_lunch_slot := ms = 1 ∧ 1 ≤ num_meals
    let is_dinner_slot := ms = 2 ∨ (ms = 1 ∧ cfg.dinner_window_start ≤ tod)
    if is_lunch_slot ∧ st.has_lunch = false then
      { st with
        ct := if tod < cfg.lunch_window_start then cfg.lunch_target else st.ct
        has_lunch := true
        meals_scheduled := ms }
    else if is_dinner_slot ∧ st.has_dinner = false then
      { st with
        ct := if tod < cfg.dinner_window_start then cfg.dinner_target else st.ct
        has_dinner := true
        meals_scheduled := ms }
    else { st with meals_scheduled := ms }
  else st

/-- One iteration of the `build_schedule` loop for a single place:
opening-hours gating, meal-window placement, day-end clipping, and — when
the activity is kept — the advance of `current_time` past the activity,
the aligned travel leg and the transition buffer.  Returns the appended
activity (if any) and the state for the next place.  `travel` is
`routes[i].duration_seconds // 60` when the leg exists, else 0. -/
def process_place (cfg : ScheduleConfig) (weekday0 num_meals : Nat)
    (pace : Pace) (place : PlaceCandidate) (travel : Nat)
    (st : BuildState) : Option ScheduledActivity × BuildState :=
  let dur := get_duration place pace
  let st1 := { st with ct := adjust_for_opening_hours weekday0 place st.ct }
  let st2 := meal_step cfg num_meals (is_meal_place place) st1
  let end_t := st2.ct + dur
  if cfg.day_end < end_t then
    if cfg.day_end ≤ st2.ct then
      (none, st2)
    else if SCHEDULING.min_activity_duration ≤ cfg.day_end - st2.ct then
      (some { place := place, start_time := st2.ct % 1440,
              end_time := cfg.day_end % 1440,
              duration_minutes := cfg.day_end - st2.ct },
       { st2 with ct := cfg.day_end + travel + cfg.buffer_minutes })
    else
      (none, st2)
  else
    (some { place := place, start_time := st2.ct % 1440,
            end_time := end_t % 1440, duration_minutes := dur },
     { st2 with ct := end_t + travel + cfg.buffer_minutes })

/-- The left-to-right pass of `build_schedule` over the place list; one
route is consumed per place index (`routes[i]` is only read when place
`i` is appended, and a missing leg contributes zero travel). -/
def build_go (cfg : ScheduleConfig) (weekday0 num_meals : Nat)
    (pace : Pace) :
    List PlaceCandidate → List Route → BuildState → List ScheduledActivity
  | [], _, _ => []
  | p :: ps, routes, st =>
    let travel :=
      match routes.head? with
      | some r => r.duration_seconds / 60
      | none => 0
    let step := process_place cfg weekday0 num_meals pace p travel st
    step.1.toList ++ build_go cfg weekday0 num_meals pace ps routes.tail step.2

/-- `ScheduleBuilder.build_schedule`: the date argument enters only
through its weekday, so it is embedded as `weekday0` (Python weekday of
the schedule date).  `num_meals` is the count of meal places in the whole
input list. -/
def build_schedule (cfg : ScheduleConfig) (places : List PlaceCandidate)
    (routes : List Route) (weekday0 : Nat) (pace : Pace) :
    List ScheduledActivity :=
  build_go cfg weekday0 (places.filter (is_meal_place ·)).length pace
    places routes
    { ct := cfg.day_start, has_lunch := false, has_dinner := false,
      meals_scheduled := 0 }

/-- The running clock stays inside the schedule date: at the start of
every loop iteration `current_time` is below 24:00 of the schedule date.
(Computed along the same state evolution as `build_go`.) -/
def within_day (cfg : ScheduleConfig) (weekday0 num_meals : Nat)
    (pace : Pace) : List PlaceCandidate → List Route → BuildState → Bool
  | [], _, _ => true
  | p :: ps, routes, st =>
    let travel :=
      match routes.head? with
      | some r => r.duration_seconds / 60
      | none => 0
    decide (st.ct < 1440) &&
      within_day cfg weekday0 num_meals pace ps routes.tail
        (process_place cfg weekday0 num_meals pace p travel st).2

/-- A place's published opening times are genuine `"HH:MM"` values
(below 24:00) — `datetime.strptime(..., "%H:%M")` enforces exactly this
on the Python side. -/
def place_hours_valid (p : PlaceCandidate) : Bool :=
  match p.opening_hours with
  | none => true
  | some hs => hs.all fun h => h.open_time < 1440

/-- All places have genuine opening times. -/
def hours_valid (places : List PlaceCandidate) : Bool :=
  places.all place_hours_valid

end ScheduleBuilder

/-! ## Route optimizer (`app/services/internal/route_optimizer.py`) -/

namespace RouteOptimizer

/-- The routing collaborator (`GoogleRoutesService`) seen from the
optimizer: `compute_route` yields `(distance_meters, duration_seconds)`
or raises; `get_distance_matrix` yields
`(duration_matrix, distance_matrix)` or raises.  `Except Unit` stands
for "value or exception". -/
structure RoutesOracle where
  compute_route : Location → Location → Except Unit (Nat × Nat)
  get_distance_matrix :
    List Location → Except Unit (List (List Nat) × List (List Nat))

/-- `matrix[i][j]` (indices proven in range wherever the Python code
relies on them; out-of-range reads default to 0 / the empty row). -/
def mat_get (m : List (List Nat)) (i j : Nat) : Nat :=
  (m.getD i []).getD j 0

/-- The argmin scan inside `RouteOptimizer._nearest_neighbor`: walk
`j = 0..n-1`, keeping the first unvisited node strictly closer than the
best so far (`nearest_dist` starts at infinity, which every entry
beats — represented by the `none` accumulator). -/
def nearest_scan (row visited : List Nat) (acc : Option (Nat × Nat))
    (j : Nat) : Option (Nat × Nat) :=
  if j ∈ visited then acc
  else
    match acc with
    | none => some (j, row.getD j 0)
    | some best =>
      if row.getD j 0 < best.2 then some (j, row.getD j 0) else acc

/-- The full `for j in range(n)` scan, keeping the chosen index. -/
def select_nearest (row : List Nat) (visited : List Nat) (n : Nat) :
    Option Nat :=
  ((List.range n).foldl (nearest_scan row visited) none).map (·.1)

/-- Body of the `while len(tour) < n` loop of `_nearest_neighbor`,
with fuel (the loop appends one node per iteration, so `n` iterations
suffice).  When the argmin scan finds nothing the source falls back to
the first unvisited index and asserts it exists; an exhausted fallback
(impossible while `len(tour) < n`, proven below) returns the tour as
is.  The Python `visited` set always equals the set of tour members, so
membership is tested on the tour itself. -/
def nn_go (m : List (List Nat)) (n : Nat) :
    Nat → List Nat → Nat → List Nat
  | 0, tour, _ => tour
  | fuel + 1, tour, current =>
    if tour.length < n then
      let sel :=
        match select_nearest (m.getD current []) tour n with
        | some j => some j
        | none => (List.range n).find? (fun j => j ∉ tour)
      match sel with
      | some j => nn_go m n fuel (tour ++ [j]) j
      | none => tour
    else tour

/-- `RouteOptimizer._nearest_neighbor`. -/
def nearest_neighbor (m : List (List Nat)) (start : Nat) : List Nat :=
  nn_go m m.length m.length [start] start

/-- `RouteOptimizer._two_opt_gain`: improvement of replacing edges
`(tour[i], tour[i+1])` and `(tour[j], tour[(j+1) % n])` by
`(tour[i], tour[j])` and `(tour[i+1], tour[(j+1) % n])`. -/
def two_opt_gain (tour : List Nat) (i j : Nat)
    (m : List (List Nat)) : Int :=
  let n := tour.length
  let a := tour.getD i 0
  let b := tour.getD (i + 1) 0
  let c := tour.getD j 0
  let d := tour.getD ((j + 1) % n) 0
  ((mat_get m a b : Int) + (mat_get m c d : Int)) -
    ((mat_get m a c : Int) + (mat_get m b d : Int))

/-- The slice assignment `tour[i+1 : j+1] = reversed(tour[i+1 : j+1])`. -/
def segment_reversed (tour : List Nat) (i j : Nat) : List Nat :=
  tour.take (i + 1) ++ ((tour.drop (i + 1)).take (j - i)).reverse ++
    tour.drop (j + 1)

/-- The scan order of the nested `for i … for j` loops of
`_two_opt_improve`: all pairs `(i, j)` with `i < n - 1` and
`i + 2 ≤ j < n`. -/
def pair_list (n : Nat) : List (Nat × Nat) :=
  (List.range (n - 1)).flatMap fun i =>
    (List.range' (i + 2) (n - (i + 2))).map fun j => (i, j)

/-- One `(i, j)` probe of `_two_opt_improve`: accept the swap (and set
`improved`) exactly when the gain is strictly positive. -/
def two_opt_step (m : List (List Nat)) (s : List Nat × Bool)
    (ij : Nat × Nat) : List Nat × Bool :=
  if 0 < two_opt_gain s.1 ij.1 ij.2 m then
    (segment_reversed s.1 ij.1 ij.2, true)
  else s

/-- One full pass of the nested loops, threading the mutated tour and
the `improved` flag (the pair order is fixed by the initial length,
which segment reversal preserves). -/
def two_opt_pass (tour : List Nat) (m : List (List Nat)) :
    List Nat × Bool :=
  (pair_list tour.length).foldl (two_opt_step m) (tour, false)

/-- The `while improved and iterations < max_iterations` loop of
`_two_opt_improve` with the remaining pass budget as fuel. -/
def two_opt_go (m : List (List Nat)) : Nat → List Nat → List Nat
  | 0, tour => tour
  | fuel + 1, tour =>
    let p := two_opt_pass tour m
    if p.2 then two_opt_go m fuel p.1 else p.1

/-- `RouteOptimizer._two_opt_improve` with the default
`max_iterations = 100`. -/
def two_opt_improve (tour : List Nat) (m : List (List Nat)) : List Nat :=
  two_opt_go m 100 tour

/-- `RouteOptimizer._calculate_totals`: sum both matrices over the
consecutive pairs of the final order, returning
`(total_distance, total_duration)`. -/
def calculate_totals (order : List Nat)
    (duration_matrix distance_matrix : List (List Nat)) : Nat × Nat :=
  (order.zip order.tail).foldl
    (fun acc e =>
      (acc.1 + mat_get distance_matrix e.1 e.2,
       acc.2 + mat_get duration_matrix e.1 e.2))
    (0, 0)

/-- `RouteOptimizer._calculate_route_totals`: per consecutive pair, add
the collaborator's distance/duration, or the fixed `1000 m / 600 s`
fallback when that single leg's lookup raises. -/
def calculate_route_totals (o : RoutesOracle)
    (places : List PlaceCandidate) : Nat × Nat :=
  (places.zip places.tail).foldl
    (fun acc e =>
      match o.compute_route e.1.location e.2.location with
      | .ok ds => (acc.1 + ds.1, acc.2 + ds.2)
      | .error _ => (acc.1 + 1000, acc.2 + 600))
    (0, 0)

/-- `RouteOptimizer._optimize_tsp` (with `_build_distance_matrix`
inlined: it only forwards the matrix request for the places'
locations).  On matrix failure: original order with the
`n * 500 m / n * 360 s` linear estimate.  Otherwise nearest-neighbor
construction, 2-opt improvement, and totals from the real matrices.
`places[i]` for `i` drawn from the tour is embedded with a default that
is proven unreachable for a square matrix. -/
def optimize_tsp (o : RoutesOracle) (places : List PlaceCandidate) :
    OptimizationResult :=
  let n := places.length
  match o.get_distance_matrix (places.map (·.location)) with
  | .error _ =>
    { places := places, total_distance_meters := n * 500,
      total_duration_seconds := n * 360 }
  | .ok mm =>
    let order := nearest_neighbor mm.1 0
    let order2 := two_opt_improve order mm.1
    let tot := calculate_totals order2 mm.1 mm.2
    { places := order2.map fun i => places.getD i default
      total_distance_meters := tot.1
      total_duration_seconds := tot.2 }

/-- `RouteOptimizer.optimize_day`.  The `start_location` parameter of the
source is accepted and never read, so it is omitted.  Size 0/1: zero
totals.  Size 2: one route lookup with the `1000 m / 720 s` fallback.
`preserve_order`: keep the order, sum per-leg metrics.  Otherwise TSP. -/
def optimize_day (o : RoutesOracle) (places : List PlaceCandidate)
    (preserve_order : Bool) : OptimizationResult :=
  let n := places.length
  if n ≤ 1 then
    { places := places, total_distance_meters := 0,
      total_duration_seconds := 0 }
  else if n = 2 then
    match o.compute_route (places.getD 0 default).location
        (places.getD 1 default).location with
    | .ok ds =>
      { places := places, total_distance_meters := ds.1,
        total_duration_seconds := ds.2 }
    | .error _ =>
      { places := places, total_distance_meters := 1000,
        total_duration_seconds := 720 }
  else if preserve_order then
    let t := calculate_route_totals o places
    { places := places, total_distance_meters := t.1,
      total_duration_seconds := t.2 }
  else optimize_tsp o places

end RouteOptimizer

/-! ## Quality grade ladder (`app/generators/day_plan/quality/models.py`) -/

/-- Letter grade for quality assessment (`QualityGrade`). -/
inductive QualityGrade where
  | APlus
  | A
  | AMinus
  | BPlus
  | B
  | BMinus
  | CPlus
  | C
  | CMinus
  | D
  | F
  deriving DecidableEq, Repr

namespace QualityGrade

/-- `QualityGrade.from_score`: the fixed cutoff ladder converting a
numeric score to a letter grade. -/
def from_score (score : ℚ) : QualityGrade :=
  if 95 ≤ score then APlus
  else if 90 ≤ score then A
  else if 85 ≤ score then AMinus
  else if 80 ≤ score then BPlus
  else if 75 ≤ score then B
  else if 70 ≤ score then BMinus
  else if 65 ≤ score then CPlus
  else if 60 ≤ score then C
  else if 55 ≤ score then CMinus
  else if 50 ≤ score then D
  else F

/-- Position of a grade on the ladder, `F = 0` up to `A+ = 10`:
higher score means higher rank. -/
def rank : QualityGrade → Nat
  | APlus => 10
  | A => 9
  | AMinus => 8
  | BPlus => 7
  | B => 6
  | BMinus => 5
  | CPlus => 4
  | C => 3
  | CMinus => 2
  | D => 1
  | F => 0

end QualityGrade

/-! ## Quality scorer (`app/generators/day_plan/quality/scorer.py`) -/

/-- `MetricResult` (`quality/models.py`): floats embedded as rationals;
the `grade` field is derived from the score in `__post_init__`, so
construction goes through `MetricResult.make` below. -/
structure MetricResult where
  name : String
  score : ℚ
  weight : ℚ
  grade : QualityGrade
  issues : List String
  suggestions : List String
  deriving DecidableEq, Repr

/-- `MetricResult(...)` construction including the `__post_init__`
derivation of `grade` from `score`. -/
def MetricResult.make (name : String) (score weight : ℚ)
    (issues suggestions : List String) : MetricResult :=
  { name := name, score := score, weight := weight,
    grade := QualityGrade.from_score score, issues := issues,
    suggestions := suggestions }

namespace ItineraryScorer

/-- One entry of the scorer's evaluator list: a fixed `name` and
`weight` plus the `evaluate` method, which returns a `MetricResult` or
raises (`Except String` carries `str(e)`).  The itinerary type is
abstract — the scorer never looks inside it except to hand it to the
evaluators. -/
structure Evaluator (I : Type) where
  name : String
  weight : ℚ
  run : I → Except String MetricResult

/-- The per-evaluator `try/except` of `ItineraryScorer.evaluate`: a
raising evaluator is replaced by a neutral score-50 result carrying the
error text as its only issue. -/
def run_evaluator {I : Type} (ev : Evaluator I) (it : I) : MetricResult :=
  match ev.run it with
  | .ok r => r
  | .error e =>
    MetricResult.make ev.name 50 ev.weight ["Evaluation error: " ++ e] []

/-- `ItineraryScorer._calculate_overall_score`: weighted mean,
guarding both the empty result list and a zero total weight. -/
def calculate_overall_score (results : List MetricResult) : ℚ :=
  if results = [] then 0
  else
    let total := (results.map (·.weight)).sum
    if total = 0 then 0
    else (results.map fun r => r.score * r.weight).sum / total

/-- The slice of `QualityReport` built by `ItineraryScorer.evaluate`
that the verification tracks: overall score and grade, the per-metric
results, and the issue count.  (Metadata fields echoing the itinerary —
destination, day/activity counts, generation mode — and the
recommendation ranking are not modelled.) -/
structure QualityReport where
  overall_score : ℚ
  overall_grade : QualityGrade
  metrics : List MetricResult
  total_issues : Nat
  deriving DecidableEq, Repr

/-- `ItineraryScorer.evaluate`: run every evaluator in order (each
isolated by `run_evaluator`) and aggregate. -/
def evaluate {I : Type} (evaluators : List (Evaluator I)) (it : I) :
    QualityReport :=
  let metric_results := evaluators.map (run_evaluator · it)
  let overall := calculate_overall_score metric_results
  { overall_score := overall
    overall_grade := QualityGrade.from_score overall
    metrics := metric_results
    total_issues := (metric_results.map (·.issues.length)).sum }

end ItineraryScorer

/-! ## Claim theorems -/

/-- A descending cutoff ladder as a step function: the value of the
first threshold at or below the score, else the default. -/
def step_fn (cuts : List (ℚ × Nat)) (dflt : Nat) (s : ℚ) : Nat :=
  match cuts with
  | [] => dflt
  | (c, v) :: rest => if c ≤ s then v else step_fn rest dflt s

/-- The cutoff/rank pairs of the `from_score` ladder. -/
def grade_ladder : List (ℚ × Nat) :=
  [(95, 10), (90, 9), (85, 8), (80, 7), (75, 6), (70, 5), (65, 4), (60, 3),
   (55, 2), (50, 1)]

/-- The ladder rank of `from_score` is the `grade_ladder` step function. -/
theorem rank_from_score_step (s : ℚ) :
    (QualityGrade.from_score s).rank = step_fn grade_ladder 0 s := by
  simp only [QualityGrade.from_score, apply_ite QualityGrade.rank]
  rfl

/-- A step function is bounded by any bound on its values. -/
theorem step_fn_le (cuts : List (ℚ × Nat)) (dflt v : Nat)
    (hv : ∀ p ∈ cuts, p.2 ≤ v) (hd : dflt ≤ v) (s : ℚ) :
    step_fn cuts dflt s ≤ v := by
  induction cuts with
  | nil => exact hd
  | cons p rest ih =>
    simp only [step_fn]
    split_ifs
    · exact hv p (List.mem_cons_self p rest)
    · exact ih fun q hq => hv q (List.mem_cons_of_mem p hq)

/-- A step function over a ladder with non-increasing values is monotone
in the score. -/
theorem step_fn_mono (cuts : List (ℚ × Nat)) (dflt : Nat)
    (hp : List.Pairwise (fun a b => b ≤ a) (cuts.map Prod.snd ++ [dflt]))
    {s t : ℚ} (hst : s ≤ t) :
    step_fn cuts dflt s ≤ step_fn cuts dflt t := by
  induction cuts with
  | nil => simp [step_fn]
  | cons p rest ih =>
    rw [List.map_cons, List.cons_append, List.pairwise_cons] at hp
    obtain ⟨hhead, htail⟩ := hp
    simp only [step_fn]
    by_cases h1 : p.1 ≤ s
    · rw [if_pos h1, if_pos (le_trans h1 hst)]
    · rw [if_neg h1]
      by_cases h2 : p.1 ≤ t
      · rw [if_pos h2]
        refine step_fn_le rest dflt p.2 ?_ ?_ s
        · intro q hq
          exact hhead q.2 (List.mem_append_left _ (List.mem_map_of_mem Prod.snd hq))
        · exact hhead dflt (List.mem_append_right _ (List.mem_singleton_self _))
      · rw [if_neg h2]
        exact ih htail

/-- C8: `QualityGrade.from_score` is monotone along the grade ladder
(a lower score never yields a higher-ranked grade, so as a step function
of the score the grade is non-increasing downwards), every boundary value
95, 90, …, 50 maps to its documented grade, and the value one unit below
each boundary maps to the next lower grade. -/
theorem grade_ladder_consistency :
    (∀ s t : ℚ, s ≤ t →
      (QualityGrade.from_score s).rank ≤ (QualityGrade.from_score t).rank) ∧
    (QualityGrade.from_score 95 = .APlus ∧ QualityGrade.from_score 94 = .A ∧
     QualityGrade.from_score 90 = .A ∧ QualityGrade.from_score 89 = .AMinus ∧
     QualityGrade.from_score 85 = .AMinus ∧ QualityGrade.from_score 84 = .BPlus ∧
     QualityGrade.from_score 80 = .BPlus ∧ QualityGrade.from_score 79 = .B ∧
     QualityGrade.from_score 75 = .B ∧ QualityGrade.from_score 74 = .BMinus ∧
     QualityGrade.from_score 70 = .BMinus ∧ QualityGrade.from_score 69 = .CPlus ∧
     QualityGrade.from_score 65 = .CPlus ∧ QualityGrade.from_score 64 = .C ∧
     QualityGrade.from_score 60 = .C ∧ QualityGrade.from_score 59 = .CMinus ∧
     QualityGrade.from_score 55 = .CMinus ∧ QualityGrade.from_score 54 = .D ∧
     QualityGrade.from_score 50 = .D ∧ QualityGrade.from_score 49 = .F) := by
  constructor
  · intro s t h
    rw [rank_from_score_step, rank_from_score_step]
    exact step_fn_mono grade_ladder 0 (by decide) h
  · refine ⟨?_, ?_, ?_, ?_, ?_, ?_, ?_, ?_, ?_, ?_, ?_, ?_, ?_, ?_, ?_, ?_,
      ?_, ?_, ?_, ?_⟩ <;> decide

/-- C8 witness: the monotonicity part applied at the concrete scores
40 ≤ 97. -/
theorem grade_ladder_consistency_witness :
    (40 : ℚ) ≤ 97 ∧
    (QualityGrade.from_score 40).rank ≤ (QualityGrade.from_score 97).rank :=
  ⟨by norm_num, grade_ladder_consistency.1 40 97 (by norm_num)⟩

/-- A place whose LLM duration hint is present but zero. -/
def zero_hint_place : PlaceCandidate :=
  { place_id := "p-zero", name := "Zero Hint Museum",
    location := { lat := 0, lng := 0 }, types := ["museum"],
    suggested_duration_minutes := some 0 }

/-- The duration rule exactly as C9 words it: the base is
`suggested_duration_minutes` whenever the field is present (even when it
is 0), else the type-table fallback; then pace multiplier and 15-minute
rounding. -/
def claimed_duration_c9 (place : PlaceCandidate) (pace : Pace) : Nat :=
  let base :=
    match place.suggested_duration_minutes with
    | some d => d
    | none => ScheduleBuilder.type_base_duration place.types
  (ScheduleBuilder.apply_pace base pace + 7) / 15 * 15

/-- C9 counterexample: for a place with a present-but-zero hint the code
ignores the hint (returning the museum fallback 90), while the claimed
formula would use base 0 and return 0, so the claim as stated fails. -/
theorem duration_formula_cex :
    ScheduleBuilder.get_duration zero_hint_place .moderate = 90 ∧
    claimed_duration_c9 zero_hint_place .moderate = 0 ∧
    ScheduleBuilder.get_duration zero_hint_place .moderate ≠
      claimed_duration_c9 zero_hint_place .moderate := by
  decide

/-- C9 amended: for every place and pace, `_get_duration` returns
`(apply_pace b pace + 7) / 15 * 15`, where the base `b` is the place's
`suggested_duration_minutes` when present **and nonzero**, else the first
matching entry of the type-to-minutes table over the place's category
tags, else 45; the pace multiplier is ×1.3 relaxed, ×1.0 moderate,
×0.8 packed, applied with integer truncation. -/
theorem duration_formula_amended (place : PlaceCandidate) (pace : Pace) :
    ScheduleBuilder.get_duration place pace =
      (ScheduleBuilder.apply_pace
        (match place.suggested_duration_minutes with
         | some d =>
           if d ≠ 0 then d else ScheduleBuilder.type_base_duration place.types
         | none => ScheduleBuilder.type_base_duration place.types)
        pace + 7) / 15 * 15 := rfl

/-- C10: a present-but-zero LLM duration hint behaves exactly as an
absent hint — `_get_duration` falls back to the type table either way
(Python truthiness treats `0` like `None`). -/
theorem zero_hint_ignored (place : PlaceCandidate) (pace : Pace) :
    ScheduleBuilder.get_duration
      { place with suggested_duration_minutes := some 0 } pace =
    ScheduleBuilder.get_duration
      { place with suggested_duration_minutes := none } pace := by
  simp [ScheduleBuilder.get_duration]

/-- C7: if the `k`-th evaluator raises, `ItineraryScorer.evaluate` still
produces one `MetricResult` per evaluator (a complete report), the `k`-th
result is the neutral substitute — score 50, the evaluator's name and
weight, the error text as its only issue — and every other position holds
exactly the result of running its own evaluator, so one failing evaluator
never aborts the report. -/
theorem scorer_isolates_evaluator_failure {I : Type}
    (evaluators : List (ItineraryScorer.Evaluator I)) (it : I) (k : Nat)
    (ev : ItineraryScorer.Evaluator I) (e : String)
    (hk : evaluators[k]? = some ev) (he : ev.run it = .error e) :
    (ItineraryScorer.evaluate evaluators it).metrics.length
        = evaluators.length ∧
    (ItineraryScorer.evaluate evaluators it).metrics[k]? =
      some (MetricResult.make ev.name 50 ev.weight
        ["Evaluation error: " ++ e] []) ∧
    ∀ (j : Nat) (ev' : ItineraryScorer.Evaluator I),
      evaluators[j]? = some ev' →
      (ItineraryScorer.evaluate evaluators it).metrics[j]? =
        some (ItineraryScorer.run_evaluator ev' it) := by
  refine ⟨?_, ?_, ?_⟩
  · simp [ItineraryScorer.evaluate]
  · simp only [ItineraryScorer.evaluate, List.getElem?_map, hk, Option.map_some']
    simp [ItineraryScorer.run_evaluator, he]
  · intro j ev' hj
    simp only [ItineraryScorer.evaluate, List.getElem?_map, hj, Option.map_some']

/-- An always-raising evaluator used as the C7 witness input. -/
def failing_evaluator : ItineraryScorer.Evaluator Unit :=
  { name := "Meal Timing", weight := 1 / 5,
    run := fun _ => .error "boom" }

/-- C7 witness: the theorem applied to a concrete one-element evaluator
list whose evaluator raises. -/
theorem scorer_isolates_evaluator_failure_witness :
    (ItineraryScorer.evaluate [failing_evaluator] ()).metrics[0]? =
      some (MetricResult.make failing_evaluator.name 50
        failing_evaluator.weight ["Evaluation error: " ++ "boom"] []) :=
  (scorer_isolates_evaluator_failure [failing_evaluator] () 0
    failing_evaluator "boom" rfl rfl).2.1

/-- A paired accumulator fold is the pair of mapped sums. -/
theorem foldl_pair_acc {α : Type} (f g : α → Nat) (l : List α) (a b : Nat) :
    l.foldl (fun acc x => (acc.1 + f x, acc.2 + g x)) (a, b) =
      (a + (l.map f).sum, b + (l.map g).sum) := by
  induction l generalizing a b with
  | nil => simp
  | cons x xs ih => simp [ih, Nat.add_assoc]

/-- `_calculate_route_totals` as the pair of per-leg sums, with the
`1000 m / 600 s` fallback on a failed leg. -/
theorem calculate_route_totals_eq (o : RouteOptimizer.RoutesOracle)
    (places : List PlaceCandidate) :
    RouteOptimizer.calculate_route_totals o places =
      (((places.zip places.tail).map fun e =>
          match o.compute_route e.1.location e.2.location with
          | .ok ds => ds.1
          | .error _ => 1000).sum,
       ((places.zip places.tail).map fun e =>
          match o.compute_route e.1.location e.2.location with
          | .ok ds => ds.2
          | .error _ => 600).sum) := by
  unfold RouteOptimizer.calculate_route_totals
  have hfun : (fun (acc : Nat × Nat) (e : PlaceCandidate × PlaceCandidate) =>
      match o.compute_route e.1.location e.2.location with
      | .ok ds => (acc.1 + ds.1, acc.2 + ds.2)
      | .error _ => (acc.1 + 1000, acc.2 + 600)) =
      fun acc e =>
        (acc.1 + (match o.compute_route e.1.location e.2.location with
          | .ok ds => ds.1
          | .error _ => 1000),
         acc.2 + (match o.compute_route e.1.location e.2.location with
          | .ok ds => ds.2
          | .error _ => 600)) := by
    funext acc e
    cases o.compute_route e.1.location e.2.location <;> rfl
  rw [hfun, foldl_pair_acc]
  simp

/-- C6: routing-collaborator failures never propagate out of
`optimize_day` — with exactly two places a failed lookup yields the fixed
`1000 m / 720 s` result; in preserve-order mode the totals are per-leg
sums where each failed leg contributes exactly `1000 m / 600 s` while
successful legs keep their real values; and in TSP mode a failed matrix
fetch returns the original order with `n·500 m / n·360 s`. -/
theorem optimizer_failure_fallbacks :
    (∀ (o : RouteOptimizer.RoutesOracle) (p q : PlaceCandidate) (b : Bool),
      o.compute_route p.location q.location = .error () →
      RouteOptimizer.optimize_day o [p, q] b =
        { places := [p, q], total_distance_meters := 1000,
          total_duration_seconds := 720 }) ∧
    (∀ (o : RouteOptimizer.RoutesOracle) (places : List PlaceCandidate),
      3 ≤ places.length →
      RouteOptimizer.optimize_day o places true =
        { places := places
          total_distance_meters := ((places.zip places.tail).map fun e =>
            match o.compute_route e.1.location e.2.location with
            | .ok ds => ds.1
            | .error _ => 1000).sum
          total_duration_seconds := ((places.zip places.tail).map fun e =>
            match o.compute_route e.1.location e.2.location with
            | .ok ds => ds.2
            | .error _ => 600).sum }) ∧
    (∀ (o : RouteOptimizer.RoutesOracle) (places : List PlaceCandidate),
      3 ≤ places.length →
      o.get_distance_matrix (places.map (·.location)) = .error () →
      RouteOptimizer.optimize_day o places false =
        { places := places, total_distance_meters := places.length * 500,
          total_duration_seconds := places.length * 360 }) := by
  refine ⟨?_, ?_, ?_⟩
  · intro o p q b h
    simp [RouteOptimizer.optimize_day, h]
  · intro o places h
    have h1 : ¬ (places.length ≤ 1) := by omega
    have h2 : ¬ (places.length = 2) := by omega
    simp [RouteOptimizer.optimize_day, h1, h2, calculate_route_totals_eq]
  · intro o places h hm
    have h1 : ¬ (places.length ≤ 1) := by omega
    have h2 : ¬ (places.length = 2) := by omega
    simp [RouteOptimizer.optimize_day, h1, h2, RouteOptimizer.optimize_tsp, hm]

/-- An oracle whose every call raises, for the C6 witness. -/
def failing_oracle : RouteOptimizer.RoutesOracle :=
  { compute_route := fun _ _ => .error ()
    get_distance_matrix := fun _ => .error () }

/-- A minimal concrete place for optimizer witnesses. -/
def place_a : PlaceCandidate :=
  { place_id := "a", name := "A", location := { lat := 0, lng := 0 },
    types := [] }

/-- A second concrete place for optimizer witnesses. -/
def place_b : PlaceCandidate :=
  { place_id := "b", name := "B", location := { lat := 1, lng := 1 },
    types := [] }

/-- A third concrete place for optimizer witnesses. -/
def place_c : PlaceCandidate :=
  { place_id := "c", name := "C", location := { lat := 2, lng := 2 },
    types := [] }

/-- C6 witness: all three fallback conjuncts applied at concrete failing
inputs. -/
theorem optimizer_failure_fallbacks_witness :
    (RouteOptimizer.optimize_day failing_oracle [place_a, place_b] true =
      { places := [place_a, place_b], total_distance_meters := 1000,
        total_duration_seconds := 720 }) ∧
    (RouteOptimizer.optimize_day failing_oracle [place_a, place_b, place_c]
        true =
      { places := [place_a, place_b, place_c]
        total_distance_meters :=
          (([place_a, place_b, place_c].zip
              [place_a, place_b, place_c].tail).map fun e =>
            match failing_oracle.compute_route e.1.location e.2.location with
            | .ok ds => ds.1
            | .error _ => 1000).sum
        total_duration_seconds :=
          (([place_a, place_b, place_c].zip
              [place_a, place_b, place_c].tail).map fun e =>
            match failing_oracle.compute_route e.1.location e.2.location with
            | .ok ds => ds.2
            | .error _ => 600).sum }) ∧
    (RouteOptimizer.optimize_day failing_oracle [place_a, place_b, place_c]
        false =
      { places := [place_a, place_b, place_c]
        total_distance_meters := [place_a, place_b, place_c].length * 500
        total_duration_seconds := [place_a, place_b, place_c].length * 360 }) :=
  ⟨optimizer_failure_fallbacks.1 failing_oracle place_a place_b true rfl,
   optimizer_failure_fallbacks.2.1 failing_oracle
     [place_a, place_b, place_c] (by decide),
   optimizer_failure_fallbacks.2.2 failing_oracle
     [place_a, place_b, place_c] (by decide) rfl⟩

/-- The state of the `build_schedule` loop for one place after
opening-hours gating and meal-window placement, i.e. the
`current_time` from which `end_time` is computed (`st2` in
`process_place`). -/
def ScheduleBuilder.pre_meal_state (cfg : ScheduleConfig)
    (weekday0 num_meals : Nat) (place : PlaceCandidate)
    (st : ScheduleBuilder.BuildState) : ScheduleBuilder.BuildState :=
  ScheduleBuilder.meal_step cfg num_meals (ScheduleBuilder.is_meal_place place)
    { st with ct := ScheduleBuilder.adjust_for_opening_hours weekday0 place st.ct }

/-- `build_go` never emits more activities than places. -/
theorem build_go_length_le (cfg : ScheduleConfig) (w nm : Nat) (pace : Pace) :
    ∀ (ps : List PlaceCandidate) (routes : List Route)
      (st : ScheduleBuilder.BuildState),
      (ScheduleBuilder.build_go cfg w nm pace ps routes st).length ≤ ps.length := by
  intro ps
  induction ps with
  | nil => intro routes st; simp [ScheduleBuilder.build_go]
  | cons p ps ih =>
    intro routes st
    simp only [ScheduleBuilder.build_go, List.length_append, List.length_cons]
    have h := ih routes.tail
      (ScheduleBuilder.process_place cfg w nm pace p
        (match routes.head? with
         | some r => r.duration_seconds / 60
         | none => 0) st).2
    cases hstep : (ScheduleBuilder.process_place cfg w nm pace p
        (match routes.head? with
         | some r => r.duration_seconds / 60
         | none => 0) st).1 <;>
      simp [hstep] at h ⊢ <;> omega

/-- A place too long to finish before day end once a first long place has
consumed the day. -/
def long_place : PlaceCandidate :=
  { place_id := "L", name := "Long Walk", location := { lat := 0, lng := 0 },
    types := [], suggested_duration_minutes := some 700 }

/-- A place that no longer fits the day after `long_place`. -/
def extra_place : PlaceCandidate :=
  { place_id := "x", name := "Extra Museum",
    location := { lat := 0, lng := 0 }, types := ["museum"],
    suggested_duration_minutes := some 45 }

/-- An input whose second place must be dropped at day end. -/
def overlong_places : List PlaceCandidate := [long_place, extra_place]

/-- C4: whenever a place's computed end time exceeds the default day end
(21:00), the loop drops the activity if `current_time` is already at or
past day end, shrinks it to end exactly at day end when at least the
30-minute floor remains, and drops it otherwise; consequently the output
is never longer than the input and can be strictly shorter (the embedding
is a total function, so no input raises). -/
theorem day_end_clipping :
    (∀ (w nm : Nat) (pace : Pace) (p : PlaceCandidate) (travel : Nat)
        (st : ScheduleBuilder.BuildState),
      1260 < (ScheduleBuilder.pre_meal_state defaultScheduleConfig w nm p st).ct
          + ScheduleBuilder.get_duration p pace →
      ((1260 ≤ (ScheduleBuilder.pre_meal_state defaultScheduleConfig w nm p st).ct →
        (ScheduleBuilder.process_place defaultScheduleConfig w nm pace p travel st).1
          = none) ∧
       ((ScheduleBuilder.pre_meal_state defaultScheduleConfig w nm p st).ct < 1260 →
        30 ≤ 1260 - (ScheduleBuilder.pre_meal_state defaultScheduleConfig w nm p st).ct →
        (ScheduleBuilder.process_place defaultScheduleConfig w nm pace p travel st).1
          = some { place := p
                   start_time :=
                     (ScheduleBuilder.pre_meal_state defaultScheduleConfig w nm p st).ct % 1440
                   end_time := 1260
                   duration_minutes :=
                     1260 - (ScheduleBuilder.pre_meal_state defaultScheduleConfig w nm p st).ct }) ∧
       ((ScheduleBuilder.pre_meal_state defaultScheduleConfig w nm p st).ct < 1260 →
        1260 - (ScheduleBuilder.pre_meal_state defaultScheduleConfig w nm p st).ct < 30 →
        (ScheduleBuilder.process_place defaultScheduleConfig w nm pace p travel st).1
          = none))) ∧
    (∀ (places : List PlaceCandidate) (routes : List Route) (w : Nat) (pace : Pace),
      (ScheduleBuilder.build_schedule defaultScheduleConfig places routes w pace).length
        ≤ places.length) ∧
    (ScheduleBuilder.build_schedule defaultScheduleConfig overlong_places [] 0
        .moderate).length < overlong_places.length := by
  refine ⟨?_, ?_, ?_⟩
  · intro w nm pace p travel st h
    have hde : defaultScheduleConfig.day_end = 1260 := rfl
    have hmin : SCHEDULING.min_activity_duration = 30 := rfl
    refine ⟨?_, ?_, ?_⟩
    · intro h1
      simp only [ScheduleBuilder.process_place, ScheduleBuilder.pre_meal_state,
        hde, hmin] at h h1 ⊢
      rw [if_pos h, if_pos h1]
    · intro h1 h2
      simp only [ScheduleBuilder.process_place, ScheduleBuilder.pre_meal_state,
        hde, hmin] at h h1 h2 ⊢
      rw [if_pos h, if_neg (by omega), if_pos h2]
    · intro h1 h2
      simp only [ScheduleBuilder.process_place, ScheduleBuilder.pre_meal_state,
        hde, hmin] at h h1 h2 ⊢
      rw [if_pos h, if_neg (by omega), if_neg (by omega)]
  · intro places routes w pace
    exact build_go_length_le defaultScheduleConfig w _ pace places routes _
  · decide

/-- A place used to witness day-end shrinking (105 minutes at moderate
pace). -/
def shrink_place : PlaceCandidate :=
  { place_id := "s", name := "Shrink Park", location := { lat := 0, lng := 0 },
    types := ["park"], suggested_duration_minutes := some 100 }

/-- C4 witness: the shrink branch applied at a concrete state 20:00 with
a 105-minute activity — it is clipped to end exactly at 21:00 with
duration 60. -/
theorem day_end_clipping_witness :
    (ScheduleBuilder.process_place defaultScheduleConfig 0 0 .moderate
        shrink_place 0
        { ct := 1200, has_lunch := false, has_dinner := false,
          meals_scheduled := 0 }).1
      = some { place := shrink_place
               start_time :=
                 (ScheduleBuilder.pre_meal_state defaultScheduleConfig 0 0
                   shrink_place
                   { ct := 1200, has_lunch := false, has_dinner := false,
                     meals_scheduled := 0 }).ct % 1440
               end_time := 1260
               duration_minutes :=
                 1260 - (ScheduleBuilder.pre_meal_state defaultScheduleConfig 0 0
                   shrink_place
                   { ct := 1200, has_lunch := false, has_dinner := false,
                     meals_scheduled := 0 }).ct } :=
  (day_end_clipping.1 0 0 .moderate shrink_place 0
    { ct := 1200, has_lunch := false, has_dinner := false,
      meals_scheduled := 0 } (by decide)).2.1 (by decide) (by decide)

/-- C5: under the default configuration, a dining-category place that is
the day's first encountered meal (`meals_scheduled = 0`, lunch not yet
taken) whose clock — after opening-hours gating — is still before the
12:00 lunch window start is scheduled to start exactly at the 12:30 lunch
target; and a non-meal place is never time-shifted for meal reasons: its
scheduled start (when kept) is exactly its opening-hours-adjusted clock. -/
theorem meal_window_forcing :
    (∀ (w nm : Nat) (pace : Pace) (p : PlaceCandidate) (travel : Nat)
        (st : ScheduleBuilder.BuildState),
      ScheduleBuilder.is_meal_place p = true →
      st.meals_scheduled = 0 → st.has_lunch = false → 1 ≤ nm →
      ScheduleBuilder.adjust_for_opening_hours w p st.ct % 1440 < 720 →
      ((ScheduleBuilder.process_place defaultScheduleConfig w nm pace p travel
          st).1.map fun a => a.start_time) = some 750) ∧
    (∀ (w nm : Nat) (pace : Pace) (p : PlaceCandidate) (travel : Nat)
        (st : ScheduleBuilder.BuildState) (a : ScheduledActivity),
      ScheduleBuilder.is_meal_place p = false →
      (ScheduleBuilder.process_place defaultScheduleConfig w nm pace p travel
          st).1 = some a →
      a.start_time = ScheduleBuilder.adjust_for_opening_hours w p st.ct % 1440) := by
  constructor
  · intro w nm pace p travel st hmeal hms hlunch hnm htod
    simp only [ScheduleBuilder.process_place, ScheduleBuilder.meal_step, hmeal,
      if_true]
    rw [if_pos (show (st.meals_scheduled + 1 = 1 ∧ 1 ≤ nm) ∧
        st.has_lunch = false from ⟨⟨by omega, hnm⟩, hlunch⟩)]
    dsimp only
    rw [if_pos (show ScheduleBuilder.adjust_for_opening_hours w p st.ct % 1440 <
        defaultScheduleConfig.lunch_window_start from htod)]
    by_cases hend : defaultScheduleConfig.day_end <
        defaultScheduleConfig.lunch_target + ScheduleBuilder.get_duration p pace
    · rw [if_pos hend, if_neg (by norm_num [defaultScheduleConfig]),
        if_pos (by norm_num [defaultScheduleConfig,
          SCHEDULING.min_activity_duration])]
      rfl
    · rw [if_neg hend]
      rfl
  · intro w nm pace p travel st a hmeal hsome
    simp only [ScheduleBuilder.process_place, ScheduleBuilder.meal_step, hmeal,
      Bool.false_eq_true, if_false] at hsome
    split_ifs at hsome <;> cases hsome <;> rfl

/-- A dining place used to witness lunch forcing. -/
def lunch_place : PlaceCandidate :=
  { place_id := "lp", name := "Lunch Bistro", location := { lat := 0, lng := 0 },
    types := ["restaurant"], suggested_duration_minutes := some 60 }

/-- C5 witness: a first meal reached at 10:00 is scheduled to start at
12:30 (minute 750). -/
theorem meal_window_forcing_witness :
    ((ScheduleBuilder.process_place defaultScheduleConfig 0 1 .moderate
        lunch_place 0
        { ct := 600, has_lunch := false, has_dinner := false,
          meals_scheduled := 0 }).1.map fun a => a.start_time) = some 750 :=
  meal_window_forcing.1 0 1 .moderate lunch_place 0
    { ct := 600, has_lunch := false, has_dinner := false,
      meals_scheduled := 0 } (by decide) rfl rfl (by decide) (by decide)

/-- If the nearest scan produces nothing, it started from nothing and
every scanned index was already visited. -/
theorem nearest_scan_fold_none (row visited : List Nat) :
    ∀ (l : List Nat) (acc : Option (Nat × Nat)),
      l.foldl (RouteOptimizer.nearest_scan row visited) acc = none →
      acc = none ∧ ∀ j ∈ l, j ∈ visited := by
  intro l
  induction l with
  | nil => intro acc h; exact ⟨h, by simp⟩
  | cons x xs ih =>
    intro acc h
    rw [List.foldl_cons] at h
    obtain ⟨hx, hall⟩ := ih _ h
    by_cases hv : x ∈ visited
    · have hacc : acc = none := by
        simpa [RouteOptimizer.nearest_scan, hv] using hx
      refine ⟨hacc, ?_⟩
      intro j hj
      rcases List.mem_cons.mp hj with rfl | hj
      · exact hv
      · exact hall j hj
    · exfalso
      cases acc with
      | none => simp [RouteOptimizer.nearest_scan, hv] at hx
      | some best =>
        rw [RouteOptimizer.nearest_scan] at hx
        rw [if_neg hv] at hx
        split at hx <;> simp at hx

/-- Any index produced by the nearest scan is unvisited and comes from
the scanned pool. -/
theorem nearest_scan_fold_some (row visited L : List Nat) :
    ∀ (l : List Nat) (acc : Option (Nat × Nat)) (p : Nat × Nat),
      (∀ q, acc = some q → q.1 ∉ visited ∧ q.1 ∈ L) →
      (∀ j ∈ l, j ∈ L) →
      l.foldl (RouteOptimizer.nearest_scan row visited) acc = some p →
      p.1 ∉ visited ∧ p.1 ∈ L := by
  intro l
  induction l with
  | nil => intro acc p hacc _ h; exact hacc p h
  | cons x xs ih =>
    intro acc p hacc hsub h
    rw [List.foldl_cons] at h
    refine ih _ p ?_ (fun j hj => hsub j (List.mem_cons_of_mem x hj)) h
    intro q hq
    by_cases hv : x ∈ visited
    · exact hacc q (by simpa [RouteOptimizer.nearest_scan, hv] using hq)
    · cases acc with
      | none =>
        rw [RouteOptimizer.nearest_scan, if_neg hv] at hq
        cases hq
        exact ⟨hv, hsub x (List.mem_cons_self x xs)⟩
      | some best =>
        rw [RouteOptimizer.nearest_scan, if_neg hv] at hq
        split at hq
        · cases hq
          exact ⟨hv, hsub x (List.mem_cons_self x xs)⟩
        · exact hacc q hq

/-- `select_nearest` returning nothing means every index below `n` is
visited. -/
theorem select_nearest_none (row visited : List Nat) (n : Nat)
    (h : RouteOptimizer.select_nearest row visited n = none) :
    ∀ j < n, j ∈ visited := by
  intro j hj
  unfold RouteOptimizer.select_nearest at h
  rw [Option.map_eq_none'] at h
  exact (nearest_scan_fold_none row visited (List.range n) none h).2 j
    (List.mem_range.mpr hj)

/-- `select_nearest` returning `j` means `j` is unvisited and below `n`. -/
theorem select_nearest_some (row visited : List Nat) (n j : Nat)
    (h : RouteOptimizer.select_nearest row visited n = some j) :
    j ∉ visited ∧ j < n := by
  unfold RouteOptimizer.select_nearest at h
  rw [Option.map_eq_some'] at h
  obtain ⟨p, hp, rfl⟩ := h
  have := nearest_scan_fold_some row visited (List.range n) (List.range n)
    none p (by intro q hq; cases hq) (fun j hj => hj) hp
  exact ⟨this.1, List.mem_range.mp this.2⟩

/-- A duplicate-free list of indices below `n` has at most `n` members. -/
theorem nodup_lt_length_le (tour : List Nat) (n : Nat) (h1 : tour.Nodup)
    (h2 : ∀ x ∈ tour, x < n) : tour.length ≤ n := by
  have hsub : List.Subperm tour (List.range n) :=
    List.subperm_of_subset h1 fun x hx => List.mem_range.mpr (h2 x hx)
  simpa using hsub.length_le

/-- Invariant of the nearest-neighbor loop: starting from a
duplicate-free partial tour of indices below `n` with enough fuel, the
loop returns a duplicate-free tour of indices below `n` of length
exactly `n`. -/
theorem nn_go_spec (m : List (List Nat)) (n : Nat) :
    ∀ (fuel : Nat) (tour : List Nat) (current : Nat),
      tour.Nodup → (∀ x ∈ tour, x < n) → n ≤ fuel + tour.length →
      (RouteOptimizer.nn_go m n fuel tour current).Nodup ∧
      (∀ x ∈ RouteOptimizer.nn_go m n fuel tour current, x < n) ∧
      (RouteOptimizer.nn_go m n fuel tour current).length = n := by
  intro fuel
  induction fuel with
  | zero =>
    intro tour current h1 h2 h4
    simp only [RouteOptimizer.nn_go]
    exact ⟨h1, h2,
      le_antisymm (nodup_lt_length_le tour n h1 h2) (by simpa using h4)⟩
  | succ fuel ih =>
    intro tour current h1 h2 h4
    rw [RouteOptimizer.nn_go]
    by_cases hlt : tour.length < n
    · rw [if_pos hlt]
      rcases hsel : RouteOptimizer.select_nearest (m.getD current []) tour n
        with _ | j
      · exfalso
        have hall := select_nearest_none _ _ _ hsel
        have : List.Subperm (List.range n) tour :=
          List.subperm_of_subset (List.nodup_range n)
            fun x hx => hall x (List.mem_range.mp hx)
        have := this.length_le
        simp at this
        omega
      · obtain ⟨hjnv, hjn⟩ := select_nearest_some _ _ _ _ hsel
        have hnodup : (tour ++ [j]).Nodup := by
          rw [List.nodup_append]
          refine ⟨h1, List.nodup_singleton j, ?_⟩
          intro a ha hb
          rw [List.mem_singleton] at hb
          subst hb
          exact hjnv ha
        have hbound : ∀ x ∈ tour ++ [j], x < n := by
          intro x hx
          rcases List.mem_append.mp hx with hx | hx
          · exact h2 x hx
          · rw [List.mem_singleton] at hx; subst hx; exact hjn
        have hfuel : n ≤ fuel + (tour ++ [j]).length := by
          rw [List.length_append, List.length_singleton]
          omega
        have hrec := ih (tour ++ [j]) j hnodup hbound hfuel
        simp only [hsel]
        exact hrec
    · rw [if_neg hlt]
      exact ⟨h1, h2,
        le_antisymm (nodup_lt_length_le tour n h1 h2) (by omega)⟩

/-- The nearest-neighbor tour over a nonempty matrix is a permutation of
`0, …, n-1`. -/
theorem nearest_neighbor_perm (m : List (List Nat)) (hn : 1 ≤ m.length) :
    (RouteOptimizer.nearest_neighbor m 0).Perm (List.range m.length) := by
  have h := nn_go_spec m m.length m.length [0] 0 (List.nodup_singleton 0)
    (by intro x hx; rw [List.mem_singleton] at hx; subst hx; omega)
    (by simp)
  obtain ⟨hnd, hb, hlen⟩ := h
  have hsub : List.Subperm (RouteOptimizer.nearest_neighbor m 0)
      (List.range m.length) :=
    List.subperm_of_subset hnd fun x hx => List.mem_range.mpr (hb x hx)
  exact hsub.perm_of_length_le (by simp [hlen, RouteOptimizer.nearest_neighbor])

/-- Membership in the 2-opt scan order: every probed pair satisfies
`i + 2 ≤ j < n`. -/
theorem pair_list_mem (n : Nat) :
    ∀ ij ∈ RouteOptimizer.pair_list n, ij.1 + 2 ≤ ij.2 ∧ ij.2 < n := by
  intro ij hij
  unfold RouteOptimizer.pair_list at hij
  rw [List.mem_flatMap] at hij
  obtain ⟨i, hi, hmem⟩ := hij
  rw [List.mem_map] at hmem
  obtain ⟨j, hj, rfl⟩ := hmem
  rw [List.mem_range'_1] at hj
  exact ⟨by omega, by omega⟩

/-- Reversing an inner segment permutes the tour. -/
theorem segment_reversed_perm (t : List Nat) (i j : Nat) (hij : i ≤ j) :
    (RouteOptimizer.segment_reversed t i j).Perm t := by
  unfold RouteOptimizer.segment_reversed
  rw [List.append_assoc]
  conv_rhs => rw [← List.take_append_drop (i + 1) t]
  refine List.Perm.append_left _ ?_
  have hdd : (t.drop (i + 1)).drop (j - i) = t.drop (j + 1) := by
    rw [List.drop_drop]
    congr 1
    omega
  conv_rhs => rw [← List.take_append_drop (j - i) (t.drop (i + 1)), hdd]
  exact List.Perm.append ((t.drop (i + 1)).take (j - i)).reverse_perm
    (List.Perm.refl _)

/-- Folding 2-opt probes over any list of ordered pairs permutes the
carried tour. -/
theorem two_opt_fold_perm (m : List (List Nat)) :
    ∀ (l : List (Nat × Nat)), (∀ ij ∈ l, ij.1 ≤ ij.2) →
      ∀ (s : List Nat × Bool),
        (l.foldl (RouteOptimizer.two_opt_step m) s).1.Perm s.1 := by
  intro l
  induction l with
  | nil => intro _ s; exact List.Perm.refl _
  | cons ij l ih =>
    intro hl s
    rw [List.foldl_cons]
    refine (ih (fun x hx => hl x (List.mem_cons_of_mem _ hx)) _).trans ?_
    unfold RouteOptimizer.two_opt_step
    split_ifs
    · exact segment_reversed_perm s.1 ij.1 ij.2
        (hl ij (List.mem_cons_self _ _))
    · exact List.Perm.refl _

/-- One full 2-opt pass permutes the tour. -/
theorem two_opt_pass_perm (t : List Nat) (m : List (List Nat)) :
    (RouteOptimizer.two_opt_pass t m).1.Perm t := by
  unfold RouteOptimizer.two_opt_pass
  exact two_opt_fold_perm m (RouteOptimizer.pair_list t.length)
    (fun ij hij => by have := pair_list_mem t.length ij hij; omega) (t, false)

/-- The bounded 2-opt improvement loop permutes the tour. -/
theorem two_opt_go_perm (m : List (List Nat)) :
    ∀ (fuel : Nat) (t : List Nat), (RouteOptimizer.two_opt_go m fuel t).Perm t := by
  intro fuel
  induction fuel with
  | zero => intro t; exact List.Perm.refl _
  | succ fuel ih =>
    intro t
    rw [RouteOptimizer.two_opt_go]
    by_cases h : (RouteOptimizer.two_opt_pass t m).2
    · rw [if_pos h]
      exact (ih _).trans (two_opt_pass_perm t m)
    · rw [if_neg h]
      exact two_opt_pass_perm t m

/-- Reading a list at `0, …, length-1` reproduces the list. -/
theorem map_getD_range {α : Type} (l : List α) (d : α) :
    (List.range l.length).map (fun i => l.getD i d) = l := by
  refine List.ext_getElem (by simp) ?_
  intro i h1 h2
  simp [List.getD_eq_getElem?_getD, List.getElem?_eq_getElem h2]

/-- C1: for every place list, preserve-order flag and routing oracle
(succeeding or failing — the only shape assumption is the real
collaborator's contract that a successful matrix is square, `n` rows of
`n` entries), the `places` field of `optimize_day`'s result is a
permutation of the input: same length and same multiset of elements. -/
theorem optimize_day_places_perm (o : RouteOptimizer.RoutesOracle)
    (places : List PlaceCandidate) (preserve_order : Bool)
    (hsq : ∀ mm, o.get_distance_matrix (places.map fun p => p.location)
        = .ok mm →
      mm.1.length = places.length ∧ ∀ row ∈ mm.1, row.length = places.length) :
    (RouteOptimizer.optimize_day o places preserve_order).places.Perm places := by
  unfold RouteOptimizer.optimize_day
  by_cases h1 : places.length ≤ 1
  · simp [h1]
  · rw [if_neg h1]
    by_cases h2 : places.length = 2
    · rw [if_pos h2]
      cases o.compute_route (places.getD 0 default).location
        (places.getD 1 default).location <;> simp
    · rw [if_neg h2]
      by_cases h3 : preserve_order
      · simp [h3]
      · rw [if_neg (by simpa using h3)]
        unfold RouteOptimizer.optimize_tsp
        rcases hm : o.get_distance_matrix (places.map fun p => p.location)
          with e | mm
        · simp [hm]
        · obtain ⟨hlen, _⟩ := hsq mm hm
          simp only [hm]
          have hperm1 : (RouteOptimizer.nearest_neighbor mm.1 0).Perm
              (List.range places.length) := by
            rw [← hlen]
            exact nearest_neighbor_perm mm.1 (by omega)
          have hperm2 :
              (RouteOptimizer.two_opt_improve
                (RouteOptimizer.nearest_neighbor mm.1 0) mm.1).Perm
              (List.range places.length) :=
            (two_opt_go_perm mm.1 100 _).trans hperm1
          have hmap := hperm2.map fun i => places.getD i default
          rw [map_getD_range places default] at hmap
          exact hmap

/-- An oracle answering the matrix request with a concrete square 3×3
matrix pair. -/
def square_oracle : RouteOptimizer.RoutesOracle :=
  { compute_route := fun _ _ => .error ()
    get_distance_matrix := fun _ =>
      .ok ([[0, 5, 9], [5, 0, 2], [9, 2, 0]], [[0, 1, 2], [1, 0, 1], [2, 1, 0]]) }

/-- C1 witness: the permutation invariant applied to a concrete
three-place TSP run with a square matrix. -/
theorem optimize_day_places_perm_witness :
    (RouteOptimizer.optimize_day square_oracle [place_a, place_b, place_c]
      false).places.Perm [place_a, place_b, place_c] :=
  optimize_day_places_perm square_oracle [place_a, place_b, place_c] false
    (by
      intro mm h
      cases h
      exact ⟨rfl, by decide⟩)

/-- Total duration of a tour read as a path: the sum of consecutive
matrix entries — exactly the duration component that
`_calculate_totals` reports for an order. -/
def path_cost (m : List (List Nat)) : List Nat → Nat
  | a :: b :: rest => RouteOptimizer.mat_get m a b + path_cost m (b :: rest)
  | _ => 0

/-- The connecting edge cost between the last node of `X` and the first
node of `Y` (0 when either side is empty). -/
def join_cost (m : List (List Nat)) (X Y : List Nat) : Nat :=
  match X.getLast?, Y.head? with
  | some x, some y => RouteOptimizer.mat_get m x y
  | _, _ => 0

/-- Total duration of a tour read as a cycle: the path plus the closing
edge from the last node back to the first — the objective whose two
boundary edges `_two_opt_gain` compares (its `tour[(j+1) % n]` wraps to
`tour[0]`). -/
def cyclic_cost (m : List (List Nat)) (l : List Nat) : Nat :=
  path_cost m l + join_cost m l l

/-- An asymmetric duration matrix on which an accepted 2-opt swap makes
the tour longer. -/
def cex_matrix : List (List Nat) := [[0, 10, 1], [1, 0, 1], [10, 100, 0]]

/-- C3 counterexample: on `cex_matrix` the probe `(i, j) = (0, 2)` — a
pair the scan really visits — has strictly positive gain, so the swap is
accepted and turns `[0, 1, 2]` into `[0, 2, 1]`; yet the total tour
duration strictly increases, both as the path total that
`_calculate_totals` reports (11 → 101) and as the cyclic total including
the wrap-around edge (21 → 102).  The accepted swap does not decrease
the tour duration. -/
theorem two_opt_swap_cex :
    (0, 2) ∈ RouteOptimizer.pair_list 3 ∧
    0 < RouteOptimizer.two_opt_gain [0, 1, 2] 0 2 cex_matrix ∧
    RouteOptimizer.two_opt_step cex_matrix ([0, 1, 2], false) (0, 2)
      = ([0, 2, 1], true) ∧
    path_cost cex_matrix [0, 1, 2] < path_cost cex_matrix [0, 2, 1] ∧
    cyclic_cost cex_matrix [0, 1, 2] < cyclic_cost cex_matrix [0, 2, 1] := by
  decide

/-- The connecting edge between nonempty lists in terms of default-valued
last/first elements. -/
theorem join_cost_eq (m : List (List Nat)) (X Y : List Nat) (hX : X ≠ [])
    (hY : Y ≠ []) :
    join_cost m X Y = RouteOptimizer.mat_get m (X.getLastD 0) (Y.headD 0) := by
  unfold join_cost
  cases hgx : X.getLast? with
  | none => exact absurd (List.getLast?_eq_none_iff.mp hgx) hX
  | some x =>
    cases hgy : Y.head? with
    | none => exact absurd (List.head?_eq_none_iff.mp hgy) hY
    | some y => simp [List.getLastD_eq_getLast?, List.headD_eq_head?_getD, hgx, hgy]

/-- Splitting a path cost at a concatenation point. -/
theorem path_cost_append (m : List (List Nat)) (X Y : List Nat) :
    path_cost m (X ++ Y) = path_cost m X + join_cost m X Y + path_cost m Y := by
  induction X with
  | nil => simp [path_cost, join_cost]
  | cons x xs ih =>
    cases xs with
    | nil =>
      cases Y with
      | nil => simp [path_cost, join_cost]
      | cons y ys =>
        have h1 : path_cost m ([x] ++ y :: ys)
            = RouteOptimizer.mat_get m x y + path_cost m (y :: ys) := rfl
        have h2 : join_cost m [x] (y :: ys) = RouteOptimizer.mat_get m x y := rfl
        have h3 : path_cost m [x] = 0 := rfl
        rw [h1, h2, h3]
        omega
    | cons x2 xs2 =>
      have h1 : path_cost m ((x :: x2 :: xs2) ++ Y)
          = RouteOptimizer.mat_get m x x2 + path_cost m ((x2 :: xs2) ++ Y) := rfl
      have h2 : path_cost m (x :: x2 :: xs2)
          = RouteOptimizer.mat_get m x x2 + path_cost m (x2 :: xs2) := rfl
      have h3 : join_cost m (x :: x2 :: xs2) Y = join_cost m (x2 :: xs2) Y := by
        unfold join_cost
        rw [List.getLast?_cons_cons]
      rw [h1, h2, h3, ih]
      omega

/-- Under a symmetric matrix, reversing a tour keeps its path cost. -/
theorem path_cost_reverse (m : List (List Nat))
    (hm : ∀ x y, RouteOptimizer.mat_get m x y = RouteOptimizer.mat_get m y x) :
    ∀ (B : List Nat), path_cost m B.reverse = path_cost m B := by
  intro B
  induction B with
  | nil => rfl
  | cons b bs ih =>
    rw [List.reverse_cons, path_cost_append]
    cases bs with
    | nil => simp [path_cost, join_cost]
    | cons b2 bs2 =>
      have h1 : path_cost m [b] = 0 := rfl
      have h2 : join_cost m (b2 :: bs2).reverse [b]
          = RouteOptimizer.mat_get m b2 b := by
        unfold join_cost
        simp [List.getLast?_reverse]
      have h3 : path_cost m (b :: b2 :: bs2)
          = RouteOptimizer.mat_get m b b2 + path_cost m (b2 :: bs2) := rfl
      rw [h2, h1, h3, ih, hm b2 b]
      omega

/-- No closing edge into an empty list. -/
theorem join_cost_nil_right (m : List (List Nat)) (X : List Nat) :
    join_cost m X [] = 0 := by
  unfold join_cost
  cases X.getLast? <;> rfl

/-- Default-valued last element of an append with nonempty right part. -/
theorem getLastD_append (X Y : List Nat) (hY : Y ≠ []) :
    (X ++ Y).getLastD 0 = Y.getLastD 0 := by
  simp [List.getLastD_eq_getLast?, List.getLast?_append_of_ne_nil X hY]

/-- Default-valued head of an append with nonempty left part. -/
theorem headD_append (X Y : List Nat) (hX : X ≠ []) :
    (X ++ Y).headD 0 = X.headD 0 := by
  simp [List.headD_eq_head?_getD, List.head?_append_of_ne_nil X hX]

/-- Default-valued head of a reversed list. -/
theorem headD_reverse (B : List Nat) : B.reverse.headD 0 = B.getLastD 0 := by
  simp [List.headD_eq_head?_getD, List.getLastD_eq_getLast?]

/-- Default-valued last element of a reversed list. -/
theorem getLastD_reverse (B : List Nat) :
    B.reverse.getLastD 0 = B.headD 0 := by
  simp [List.headD_eq_head?_getD, List.getLastD_eq_getLast?]

/-- The 2-opt exchange identity: reversing the middle block `B` of a
cyclic tour `A ++ B ++ C` trades the two boundary edges
`(last A → head B)` and `(last B → next)` for `(last A → last B)` and
`(head B → next)` (where `next` wraps to the head of `A` when `C` is
empty), and — for a symmetric matrix — changes nothing else in the
cyclic cost. -/
theorem cyclic_cost_swap (m : List (List Nat))
    (hm : ∀ x y, RouteOptimizer.mat_get m x y = RouteOptimizer.mat_get m y x)
    (A B C : List Nat) (hA : A ≠ []) (hB : B ≠ []) :
    cyclic_cost m (A ++ B.reverse ++ C)
      + RouteOptimizer.mat_get m (A.getLastD 0) (B.headD 0)
      + RouteOptimizer.mat_get m (B.getLastD 0) ((C ++ A).headD 0)
    = cyclic_cost m (A ++ B ++ C)
      + RouteOptimizer.mat_get m (A.getLastD 0) (B.getLastD 0)
      + RouteOptimizer.mat_get m (B.headD 0) ((C ++ A).headD 0) := by
  have hBrev : B.reverse ≠ [] := by simpa using hB
  have hAB : A ++ B ≠ [] := by simp [hA]
  have hABrev : A ++ B.reverse ≠ [] := by simp [hA]
  unfold cyclic_cost
  rw [path_cost_append m (A ++ B) C, path_cost_append m A B,
    path_cost_append m (A ++ B.reverse) C, path_cost_append m A B.reverse,
    path_cost_reverse m hm B,
    join_cost_eq m A B hA hB, join_cost_eq m A B.reverse hA hBrev,
    headD_reverse]
  cases C with
  | nil =>
    rw [join_cost_nil_right, join_cost_nil_right, List.append_nil,
      List.append_nil,
      join_cost_eq m (A ++ B) (A ++ B) hAB hAB,
      join_cost_eq m (A ++ B.reverse) (A ++ B.reverse) hABrev hABrev,
      getLastD_append A B hB, getLastD_append A B.reverse hBrev,
      getLastD_reverse, headD_append A B hA, headD_append A B.reverse hA]
    simp only [List.nil_append]
    omega
  | cons c0 C' =>
    have hC : c0 :: C' ≠ [] := by simp
    have hABC : (A ++ B) ++ c0 :: C' ≠ [] := by simp [hA]
    have hABrevC : (A ++ B.reverse) ++ c0 :: C' ≠ [] := by simp [hA]
    rw [join_cost_eq m (A ++ B) (c0 :: C') hAB hC,
      join_cost_eq m (A ++ B.reverse) (c0 :: C') hABrev hC,
      join_cost_eq m ((A ++ B) ++ c0 :: C') ((A ++ B) ++ c0 :: C') hABC hABC,
      join_cost_eq m ((A ++ B.reverse) ++ c0 :: C')
        ((A ++ B.reverse) ++ c0 :: C') hABrevC hABrevC,
      getLastD_append A B hB, getLastD_append A B.reverse hBrev,
      getLastD_reverse,
      getLastD_append (A ++ B) (c0 :: C') hC,
      getLastD_append (A ++ B.reverse) (c0 :: C') hC,
      headD_append (A ++ B) (c0 :: C') hAB,
      headD_append (A ++ B.reverse) (c0 :: C') hABrev,
      headD_append A B hA, headD_append A B.reverse hA,
      headD_append (c0 :: C') A hC]
    omega

/-- Reading inside a prefix. -/
theorem getD_take (t : List Nat) (k i d : Nat) (h : i < k) :
    (t.take k).getD i d = t.getD i d := by
  simp [List.getD_eq_getElem?_getD, List.getElem?_take_of_lt h]

/-- Reading inside a suffix. -/
theorem getD_drop (t : List Nat) (k i d : Nat) :
    (t.drop k).getD i d = t.getD (k + i) d := by
  simp [List.getD_eq_getElem?_getD, List.getElem?_drop]

/-- `headD` as an indexed read. -/
theorem headD_eq_getD (l : List Nat) : l.headD 0 = l.getD 0 0 := by
  cases l <;> rfl

/-- `getLastD` as an indexed read. -/
theorem getLastD_eq_getD (l : List Nat) :
    l.getLastD 0 = l.getD (l.length - 1) 0 := by
  simp [List.getLastD_eq_getLast?, List.getLast?_eq_getElem?,
    List.getD_eq_getElem?_getD]

/-- An accepted 2-opt swap (`gain > 0` at a really-scanned pair
`i + 2 ≤ j < n`) strictly decreases the cyclic tour cost whenever the
duration matrix is symmetric. -/
theorem accepted_swap_decreases_cyclic (m : List (List Nat))
    (hm : ∀ x y, RouteOptimizer.mat_get m x y = RouteOptimizer.mat_get m y x)
    (t : List Nat) (i j : Nat) (hij : i + 2 ≤ j) (hjn : j < t.length)
    (hgain : 0 < RouteOptimizer.two_opt_gain t i j m) :
    cyclic_cost m (RouteOptimizer.segment_reversed t i j) < cyclic_cost m t := by
  set A := t.take (i + 1) with hAdef
  set B := (t.drop (i + 1)).take (j - i) with hBdef
  set C := t.drop (j + 1) with hCdef
  have hA_len : A.length = i + 1 := by
    rw [hAdef, List.length_take]
    omega
  have hB_len : B.length = j - i := by
    rw [hBdef, List.length_take, List.length_drop]
    omega
  have hA : A ≠ [] := List.length_pos.mp (by omega)
  have hB : B ≠ [] := List.length_pos.mp (by omega)
  have hsplit : t = A ++ B ++ C := by
    rw [hAdef, hBdef, hCdef, List.append_assoc]
    conv_lhs => rw [← List.take_append_drop (i + 1) t]
    congr 1
    conv_lhs => rw [← List.take_append_drop (j - i) (t.drop (i + 1))]
    congr 1
    rw [List.drop_drop]
    congr 1
    omega
  have hrev : RouteOptimizer.segment_reversed t i j = A ++ B.reverse ++ C := rfl
  have ha : A.getLastD 0 = t.getD i 0 := by
    rw [getLastD_eq_getD, hA_len, Nat.add_sub_cancel, hAdef,
      getD_take t (i + 1) i 0 (by omega)]
  have hb : B.headD 0 = t.getD (i + 1) 0 := by
    rw [headD_eq_getD, hBdef, getD_take _ _ _ _ (by omega), getD_drop]
  have hc : B.getLastD 0 = t.getD j 0 := by
    rw [getLastD_eq_getD, hB_len, hBdef, getD_take _ _ _ _ (by omega),
      getD_drop]
    congr 1
    omega
  have hd : (C ++ A).headD 0 = t.getD ((j + 1) % t.length) 0 := by
    rcases Nat.lt_or_ge (j + 1) t.length with hlt | hge
    · have hC : C ≠ [] := List.length_pos.mp (by rw [hCdef, List.length_drop]; omega)
      rw [headD_append C A hC, hCdef, headD_eq_getD, getD_drop,
        Nat.mod_eq_of_lt hlt]
    · have hj1 : j + 1 = t.length := by omega
      have hC : C = [] := by rw [hCdef, hj1]; exact List.drop_length t
      rw [hC, List.nil_append, headD_eq_getD, hj1, Nat.mod_self, hAdef,
        getD_take t (i + 1) 0 0 (by omega)]
  have hg : RouteOptimizer.two_opt_gain t i j m =
      ((RouteOptimizer.mat_get m (t.getD i 0) (t.getD (i + 1) 0) : Int)
        + (RouteOptimizer.mat_get m (t.getD j 0)
            (t.getD ((j + 1) % t.length) 0) : Int))
      - ((RouteOptimizer.mat_get m (t.getD i 0) (t.getD j 0) : Int)
        + (RouteOptimizer.mat_get m (t.getD (i + 1) 0)
            (t.getD ((j + 1) % t.length) 0) : Int)) := rfl
  rw [hg] at hgain
  have hswap := cyclic_cost_swap m hm A B C hA hB
  rw [ha, hb, hc, hd] at hswap
  rw [hrev]
  conv_rhs => rw [hsplit]
  omega

/-- If a fold of 2-opt probes ends with the `improved` flag down, the
flag was never raised and the tour was never touched. -/
theorem two_opt_fold_flag (m : List (List Nat)) :
    ∀ (l : List (Nat × Nat)) (s : List Nat × Bool),
      (l.foldl (RouteOptimizer.two_opt_step m) s).2 = false →
      s.2 = false ∧ (l.foldl (RouteOptimizer.two_opt_step m) s).1 = s.1 := by
  intro l
  induction l with
  | nil => intro s h; exact ⟨h, rfl⟩
  | cons ij l ih =>
    intro s h
    rw [List.foldl_cons] at h ⊢
    obtain ⟨hstep, hrest⟩ := ih _ h
    by_cases hg : 0 < RouteOptimizer.two_opt_gain s.1 ij.1 ij.2 m
    · exfalso
      have htrue : (RouteOptimizer.two_opt_step m s ij).2 = true := by
        unfold RouteOptimizer.two_opt_step
        rw [if_pos hg]
      rw [htrue] at hstep
      exact absurd hstep (by decide)
    · have hss : RouteOptimizer.two_opt_step m s ij = s := by
        unfold RouteOptimizer.two_opt_step
        rw [if_neg hg]
      rw [hss] at hstep hrest ⊢
      exact ⟨hstep, hrest⟩

/-- A pass that reports no improvement returns its input tour. -/
theorem two_opt_pass_false (t : List Nat) (m : List (List Nat))
    (h : (RouteOptimizer.two_opt_pass t m).2 = false) :
    (RouteOptimizer.two_opt_pass t m).1 = t :=
  (two_opt_fold_flag m (RouteOptimizer.pair_list t.length) (t, false) h).2

/-- C3 amended: each accepted 2-opt swap (positive `_two_opt_gain` at a
scanned pair) strictly decreases the **cyclic** tour duration — path plus
the wrap-around edge that `_two_opt_gain` itself uses — **provided the
duration matrix is symmetric**; on an asymmetric matrix, or for the
path-only total that `_calculate_totals` reports, an accepted swap can
increase the total (see the counterexample).  And 2-opt is idempotent at
convergence: if the pass over `_two_opt_improve`'s output reports no
improvement, that pass performs no swap (it returns the same order with
the flag down) and re-running `_two_opt_improve` returns the output
unchanged.  Determinism is inherent: the embedding is a pure function of
the tour and matrix. -/
theorem two_opt_monotonicity_amended :
    (∀ (m : List (List Nat)) (t : List Nat) (i j : Nat),
      (∀ x y, RouteOptimizer.mat_get m x y = RouteOptimizer.mat_get m y x) →
      i + 2 ≤ j → j < t.length →
      0 < RouteOptimizer.two_opt_gain t i j m →
      cyclic_cost m (RouteOptimizer.segment_reversed t i j)
        < cyclic_cost m t) ∧
    (∀ (t : List Nat) (m : List (List Nat)),
      (RouteOptimizer.two_opt_pass (RouteOptimizer.two_opt_improve t m) m).2
          = false →
      RouteOptimizer.two_opt_pass (RouteOptimizer.two_opt_improve t m) m
          = (RouteOptimizer.two_opt_improve t m, false) ∧
      RouteOptimizer.two_opt_improve (RouteOptimizer.two_opt_improve t m) m
          = RouteOptimizer.two_opt_improve t m) := by
  constructor
  · intro m t i j hm hij hjn hgain
    exact accepted_swap_decreases_cyclic m hm t i j hij hjn hgain
  · intro t m h
    have hid := two_opt_pass_false _ m h
    constructor
    · rw [Prod.ext_iff]
      exact ⟨hid, h⟩
    · show RouteOptimizer.two_opt_go m 100 (RouteOptimizer.two_opt_improve t m)
        = RouteOptimizer.two_opt_improve t m
      rw [RouteOptimizer.two_opt_go, if_neg (by rw [h]; exact Bool.false_ne_true)]
      exact hid

/-- A concrete symmetric 4×4 duration matrix with an improving probe. -/
def sym_matrix : List (List Nat) :=
  [[0, 1, 1, 1], [1, 0, 10, 1], [1, 10, 0, 1], [1, 1, 1, 0]]

/-- `sym_matrix` reads as zero outside its 4×4 block. -/
theorem sym_matrix_oob (x y : Nat) (h : ¬(x < 4 ∧ y < 4)) :
    RouteOptimizer.mat_get sym_matrix x y = 0 := by
  by_cases hx : x < 4
  · have hy : 4 ≤ y := by omega
    unfold RouteOptimizer.mat_get
    apply List.getD_eq_default
    interval_cases x <;> simpa [sym_matrix] using hy
  · unfold RouteOptimizer.mat_get
    have hrow : sym_matrix.getD x [] = [] :=
      List.getD_eq_default _ _ (by simp [sym_matrix]; omega)
    rw [hrow]
    rfl

/-- `sym_matrix` is symmetric under `mat_get`, defaults included. -/
theorem sym_matrix_symm (x y : Nat) :
    RouteOptimizer.mat_get sym_matrix x y
      = RouteOptimizer.mat_get sym_matrix y x := by
  by_cases hx : x < 4
  · by_cases hy : y < 4
    · interval_cases x <;> interval_cases y <;> rfl
    · rw [sym_matrix_oob x y (by omega), sym_matrix_oob y x (by omega)]
  · rw [sym_matrix_oob x y (by omega), sym_matrix_oob y x (by omega)]

/-- C3 witness: both amended conjuncts applied at concrete inputs — the
accepted probe `(1, 3)` on `sym_matrix` strictly decreases the cyclic
cost of `[0, 1, 2, 3]`, and a converged 2-opt run on the zero matrix is
a fixpoint of re-running. -/
theorem two_opt_monotonicity_amended_witness :
    cyclic_cost sym_matrix
        (RouteOptimizer.segment_reversed [0, 1, 2, 3] 1 3)
      < cyclic_cost sym_matrix [0, 1, 2, 3] ∧
    RouteOptimizer.two_opt_improve
        (RouteOptimizer.two_opt_improve [0, 1, 2] [[0, 0, 0], [0, 0, 0], [0, 0, 0]])
        [[0, 0, 0], [0, 0, 0], [0, 0, 0]]
      = RouteOptimizer.two_opt_improve [0, 1, 2]
          [[0, 0, 0], [0, 0, 0], [0, 0, 0]] :=
  ⟨two_opt_monotonicity_amended.1 sym_matrix [0, 1, 2, 3] 1 3 sym_matrix_symm
      (by decide) (by decide) (by decide),
   (two_opt_monotonicity_amended.2 [0, 1, 2]
      [[0, 0, 0], [0, 0, 0], [0, 0, 0]] (by decide)).2⟩

/-- A four-hour non-meal first stop (09:00–13:00 at moderate pace). -/
def cex_nonmeal : PlaceCandidate :=
  { place_id := "cx1", name := "Long Gallery", location := { lat := 0, lng := 0 },
    types := [], suggested_duration_minutes := some 240 }

/-- A restaurant reached after an overnight travel leg. -/
def cex_meal : PlaceCandidate :=
  { place_id := "cx2", name := "Late Restaurant",
    location := { lat := 0, lng := 0 }, types := ["restaurant"],
    suggested_duration_minutes := some 60 }

/-- A 1305-minute travel leg (78300 seconds) pushing the clock past
midnight. -/
def cex_route : Route := { distance_meters := 0, duration_seconds := 78300 }

/-- C2 counterexample: with a huge travel leg the running clock passes
midnight (first activity 09:00–13:00, then 1305 min travel + 15 min
buffer lands at 11:00 the next day); the meal pass then compares only
the time-of-day, sees "before the lunch window", and jumps the clock
back to 12:30 of the schedule date — emitting `end_time[0] = 13:00 >
start_time[1] = 12:30`, an overlapping, non-monotone schedule.  The
claimed invariant fails on this input. -/
theorem schedule_overlap_cex :
    ((ScheduleBuilder.build_schedule defaultScheduleConfig
        [cex_nonmeal, cex_meal] [cex_route] 0 .moderate).map
      fun a => (a.start_time, a.end_time)) = [(540, 780), (750, 810)] ∧
    ¬ List.Chain' (fun a b => a.end_time ≤ b.start_time)
        (ScheduleBuilder.build_schedule defaultScheduleConfig
          [cex_nonmeal, cex_meal] [cex_route] 0 .moderate) := by
  have hfull : ScheduleBuilder.build_schedule defaultScheduleConfig
      [cex_nonmeal, cex_meal] [cex_route] 0 .moderate =
      [{ place := cex_nonmeal, start_time := 540, end_time := 780,
         duration_minutes := 240 },
       { place := cex_meal, start_time := 750, end_time := 810,
         duration_minutes := 60 }] := by decide
  constructor
  · rw [hfull]
    decide
  · intro h
    rw [hfull, List.chain'_cons] at h
    exact absurd h.1 (by decide)

/-- Opening-hours gating never rewinds the clock. -/
theorem find_open_adjust_mono (gd ct : Nat) (hrs : List OpeningHours) :
    ct ≤ ScheduleBuilder.find_open_adjust gd ct hrs := by
  induction hrs with
  | nil => exact le_refl ct
  | cons h hs ih =>
    unfold ScheduleBuilder.find_open_adjust
    split_ifs with h1 h2
    · omega
    · exact le_refl ct
    · exact ih

/-- `_adjust_for_opening_hours` never rewinds the clock. -/
theorem adjust_mono (w : Nat) (p : PlaceCandidate) (ct : Nat) :
    ct ≤ ScheduleBuilder.adjust_for_opening_hours w p ct := by
  unfold ScheduleBuilder.adjust_for_opening_hours
  cases p.opening_hours with
  | none => exact le_refl ct
  | some hrs =>
    dsimp only
    split_ifs
    · exact le_refl ct
    · exact find_open_adjust_mono _ _ _

/-- Within the schedule date, gating by valid opening times stays within
the date. -/
theorem find_open_adjust_lt (gd ct : Nat) (hrs : List OpeningHours)
    (hct : ct < 1440) (hv : ∀ h ∈ hrs, h.open_time < 1440) :
    ScheduleBuilder.find_open_adjust gd ct hrs < 1440 := by
  induction hrs with
  | nil => exact hct
  | cons h hs ih =>
    unfold ScheduleBuilder.find_open_adjust
    split_ifs with h1 h2
    · have := hv h (List.mem_cons_self h hs)
      omega
    · exact hct
    · exact ih fun h hm => hv h (List.mem_cons_of_mem _ hm)

/-- Within the schedule date, `_adjust_for_opening_hours` with valid
hours stays within the date. -/
theorem adjust_lt (w : Nat) (p : PlaceCandidate) (ct : Nat)
    (hct : ct < 1440) (hv : ScheduleBuilder.place_hours_valid p = true) :
    ScheduleBuilder.adjust_for_opening_hours w p ct < 1440 := by
  unfold ScheduleBuilder.adjust_for_opening_hours
  unfold ScheduleBuilder.place_hours_valid at hv
  cases hop : p.opening_hours with
  | none => exact hct
  | some hrs =>
    rw [hop] at hv
    rw [List.all_eq_true] at hv
    dsimp only
    split_ifs
    · exact hct
    · refine find_open_adjust_lt _ _ _ hct ?_
      intro h hm
      simpa using hv h hm

/-- Within the schedule date, the meal pass only moves the clock forward
and keeps it within the date (default configuration). -/
theorem meal_step_bounds (nm : Nat) (b : Bool)
    (st : ScheduleBuilder.BuildState) (hct : st.ct < 1440) :
    st.ct ≤ (ScheduleBuilder.meal_step defaultScheduleConfig nm b st).ct ∧
    (ScheduleBuilder.meal_step defaultScheduleConfig nm b st).ct < 1440 := by
  have hmod : st.ct % 1440 = st.ct := Nat.mod_eq_of_lt hct
  unfold ScheduleBuilder.meal_step
  cases b
  · exact ⟨le_refl _, hct⟩
  · simp only [if_true,
      show defaultScheduleConfig.lunch_window_start = 720 from rfl,
      show defaultScheduleConfig.dinner_window_start = 1110 from rfl,
      show defaultScheduleConfig.lunch_target = 750 from rfl,
      show defaultScheduleConfig.dinner_target = 1140 from rfl, hmod]
    split_ifs <;> refine ⟨?_, ?_⟩ <;> dsimp only <;> omega

/-- One loop iteration, started within the schedule date with valid
hours: the clock never rewinds, and an emitted activity starts no
earlier than the incoming clock, ends no earlier than it starts, ends by
day end, and ends no later than the outgoing clock (default
configuration). -/
theorem process_place_invariant (w nm : Nat) (pace : Pace)
    (p : PlaceCandidate) (travel : Nat) (st : ScheduleBuilder.BuildState)
    (hct : st.ct < 1440)
    (hv : ScheduleBuilder.place_hours_valid p = true) :
    st.ct ≤ (ScheduleBuilder.process_place defaultScheduleConfig w nm pace p
      travel st).2.ct ∧
    ∀ a, (ScheduleBuilder.process_place defaultScheduleConfig w nm pace p
        travel st).1 = some a →
      st.ct ≤ a.start_time ∧ a.start_time ≤ a.end_time ∧
      a.end_time ≤ 1260 ∧
      a.end_time ≤ (ScheduleBuilder.process_place defaultScheduleConfig w nm
        pace p travel st).2.ct := by
  have h1 := adjust_mono w p st.ct
  have h2 := adjust_lt w p st.ct hct hv
  obtain ⟨h3, h4⟩ := meal_step_bounds nm (ScheduleBuilder.is_meal_place p)
    { st with ct := ScheduleBuilder.adjust_for_opening_hours w p st.ct }
    (by simpa using h2)
  simp only [ScheduleBuilder.process_place]
  generalize hgen : ScheduleBuilder.meal_step defaultScheduleConfig nm
      (ScheduleBuilder.is_meal_place p)
      { st with ct := ScheduleBuilder.adjust_for_opening_hours w p st.ct }
      = st2 at h3 h4 ⊢
  have h3' : ScheduleBuilder.adjust_for_opening_hours w p st.ct ≤ st2.ct := by
    simpa using h3
  have h5 : st.ct ≤ st2.ct := le_trans h1 h3'
  have hmod2 : st2.ct % 1440 = st2.ct := Nat.mod_eq_of_lt h4
  simp only [show defaultScheduleConfig.day_end = 1260 from rfl,
    show SCHEDULING.min_activity_duration = 30 from rfl,
    show defaultScheduleConfig.buffer_minutes = 15 from rfl]
  split_ifs with hend hlate hmin
  · exact ⟨by dsimp only; exact h5, by intro a ha; simp at ha⟩
  · refine ⟨by dsimp only; omega, ?_⟩
    intro a ha
    dsimp only at ha
    cases ha
    refine ⟨?_, ?_, ?_, ?_⟩ <;> dsimp only <;> omega
  · exact ⟨by dsimp only; exact h5, by intro a ha; simp at ha⟩
  · refine ⟨by dsimp only; omega, ?_⟩
    intro a ha
    dsimp only at ha
    cases ha
    refine ⟨?_, ?_, ?_, ?_⟩ <;> dsimp only <;> omega

/-- Invariant of the whole pass: while the running clock stays within
the schedule date and hours are valid, the emitted schedule is chained
(each activity ends before the next starts and starts are
non-decreasing) and every activity starts at or after the incoming
clock, runs forward, and ends by day end. -/
theorem build_go_invariant (w nm : Nat) (pace : Pace) :
    ∀ (ps : List PlaceCandidate) (routes : List Route)
      (st : ScheduleBuilder.BuildState),
      ScheduleBuilder.hours_valid ps = true →
      ScheduleBuilder.within_day defaultScheduleConfig w nm pace ps routes st
          = true →
      List.Chain'
        (fun a b => a.end_time ≤ b.start_time ∧ a.start_time ≤ b.start_time)
        (ScheduleBuilder.build_go defaultScheduleConfig w nm pace ps routes st) ∧
      ∀ a ∈ ScheduleBuilder.build_go defaultScheduleConfig w nm pace ps routes st,
        st.ct ≤ a.start_time ∧ a.start_time ≤ a.end_time ∧
          a.end_time ≤ 1260 := by
  intro ps
  induction ps with
  | nil =>
    intro routes st _ _
    exact ⟨List.chain'_nil, by intro a ha; cases ha⟩
  | cons p ps ih =>
    intro routes st hv hwd
    rw [ScheduleBuilder.hours_valid, List.all_cons, Bool.and_eq_true] at hv
    obtain ⟨hvp, hvps⟩ := hv
    rw [ScheduleBuilder.within_day, Bool.and_eq_true,
      decide_eq_true_eq] at hwd
    obtain ⟨hct, hwd'⟩ := hwd
    obtain ⟨hmono, hacts⟩ := process_place_invariant w nm pace p
      (match routes.head? with
       | some r => r.duration_seconds / 60
       | none => 0) st hct hvp
    obtain ⟨hchain, hmem⟩ := ih routes.tail _ hvps hwd'
    rw [ScheduleBuilder.build_go]
    cases hstep : (ScheduleBuilder.process_place defaultScheduleConfig w nm
        pace p
        (match routes.head? with
         | some r => r.duration_seconds / 60
         | none => 0) st).1 with
    | none =>
      simp only [hstep, Option.toList_none, List.nil_append]
      refine ⟨hchain, ?_⟩
      intro a ha
      obtain ⟨ha1, ha2, ha3⟩ := hmem a ha
      exact ⟨le_trans hmono ha1, ha2, ha3⟩
    | some act =>
      simp only [hstep, Option.toList_some, List.singleton_append]
      obtain ⟨ha1, ha2, ha3, ha4⟩ := hacts act hstep
      constructor
      · rw [List.chain'_cons']
        refine ⟨?_, hchain⟩
        intro b hb
        obtain ⟨hb1, _, _⟩ := hmem b (List.mem_of_mem_head? hb)
        exact ⟨le_trans ha4 hb1, le_trans ha2 (le_trans ha4 hb1)⟩
      · intro a ha
        rcases List.mem_cons.mp ha with rfl | ha
        · exact ⟨ha1, ha2, ha3⟩
        · obtain ⟨hb1, hb2, hb3⟩ := hmem a ha
          exact ⟨le_trans hmono hb1, hb2, hb3⟩

/-- C2 amended: the claimed invariant holds for every input on which the
running clock never crosses midnight of the schedule date (the
`within_day` side condition; opening times are genuine `"HH:MM"`
values).  Then consecutive activities never overlap
(`end_time[i] ≤ start_time[i+1]`), start times are non-decreasing, and
every activity lies within the default day `[09:00, 21:00]`
(minutes 540–1260).  Without the side condition a meal-window jump can
move the clock back to the schedule date and break the invariant (see
the counterexample). -/
theorem schedule_invariants_amended (places : List PlaceCandidate)
    (routes : List Route) (w : Nat) (pace : Pace)
    (hv : ScheduleBuilder.hours_valid places = true)
    (hwd : ScheduleBuilder.within_day defaultScheduleConfig w
      (places.filter (ScheduleBuilder.is_meal_place ·)).length pace places
      routes
      { ct := 540, has_lunch := false, has_dinner := false,
        meals_scheduled := 0 } = true) :
    List.Chain' (fun a b => a.end_time ≤ b.start_time)
      (ScheduleBuilder.build_schedule defaultScheduleConfig places routes w
        pace) ∧
    List.Chain' (fun a b => a.start_time ≤ b.start_time)
      (ScheduleBuilder.build_schedule defaultScheduleConfig places routes w
        pace) ∧
    ∀ a ∈ ScheduleBuilder.build_schedule defaultScheduleConfig places routes
        w pace,
      540 ≤ a.start_time ∧ a.start_time ≤ a.end_time ∧ a.end_time ≤ 1260 := by
  obtain ⟨hchain, hmem⟩ := build_go_invariant w
    (places.filter (ScheduleBuilder.is_meal_place ·)).length pace places
    routes
    { ct := 540, has_lunch := false, has_dinner := false,
      meals_scheduled := 0 } hv hwd
  exact ⟨List.Chain'.imp (fun a b hab => hab.1) hchain,
    List.Chain'.imp (fun a b hab => hab.2) hchain, hmem⟩

/-- C2 witness: the amended invariant applied to a concrete one-place
schedule, with both side conditions checked by evaluation. -/
theorem schedule_invariants_amended_witness :
    ScheduleBuilder.hours_valid [lunch_place] = true ∧
    ScheduleBuilder.within_day defaultScheduleConfig 0
      ([lunch_place].filter (ScheduleBuilder.is_meal_place ·)).length
      .moderate [lunch_place] []
      { ct := 540, has_lunch := false, has_dinner := false,
        meals_scheduled := 0 } = true ∧
    (List.Chain' (fun a b => a.end_time ≤ b.start_time)
      (ScheduleBuilder.build_schedule defaultScheduleConfig [lunch_place] []
        0 .moderate) ∧
    List.Chain' (fun a b => a.start_time ≤ b.start_time)
      (ScheduleBuilder.build_schedule defaultScheduleConfig [lunch_place] []
        0 .moderate) ∧
    ∀ a ∈ ScheduleBuilder.build_schedule defaultScheduleConfig [lunch_place]
        [] 0 .moderate,
      540 ≤ a.start_time ∧ a.start_time ≤ a.end_time ∧ a.end_time ≤ 1260) :=
  ⟨by decide, by decide,
   schedule_invariants_amended [lunch_place] [] 0 .moderate (by decide)
     (by decide)⟩
